import Mathlib

/-!
# Verification of the schoolText extraction and reconciliation engine

Shallow embedding of the repository's core:

* `app/parser/pdf_parser.py` — document extraction (section location, the
  table-based activity extractor, the three text-based extractors and the
  `parse_pdf` entry point);
* `app/parser/yaml_parser.py` — the structured-evaluation parser;
* `app/services/reference_service.py` — the reconciliation / merge engine;
* `app/services/client_service.py` — document-only ingestion.

Texts are represented as `List Char` (Python `str` indexing, length and
slicing are all code-point based, which matches `List Char` exactly).
Python regular-expression calls are embedded through a small backtracking
regex interpreter (`reM` below) together with one transcribed pattern AST
per regex literal of the source; the interpreter implements leftmost
search, greedy/lazy repetition, alternation preferring the left branch,
capture groups (latest capture wins, unset groups read as `none`) and
zero-width assertions, i.e. the fragment of `re` the source uses.
-/

/-- Python `str.isspace` / the `\s` class (ASCII part, which is the only
part the documents use): space, tab, newline, carriage return, vertical
tab and form feed. -/
def isPySpace (c : Char) : Bool :=
  c = ' ' || c = '\t' || c = '\n' || c = '\r' || c = '\x0b' || c = '\x0c'

/-- The `\d` class: ASCII decimal digits. -/
def isPyDigit (c : Char) : Bool :=
  '0' ≤ c && c ≤ '9'

/-- Python `str.strip()` on a code-point list: drop whitespace from both
ends. -/
def pyStrip (l : List Char) : List Char :=
  ((l.dropWhile isPySpace).reverse.dropWhile isPySpace).reverse

/-- Python `str.strip()` lifted to `String`. -/
def pyStripS (s : String) : String :=
  String.mk (pyStrip s.toList)

/-- Substring test: does `pat` occur contiguously inside `s`?  This is
Python's `pat in s`. -/
def isSubL (pat : List Char) : List Char → Bool
  | [] => pat.isEmpty
  | c :: t => pat.isPrefixOf (c :: t) || isSubL pat t

/-- Number of positions of `s` at which `pat` starts (occurrence count,
overlapping occurrences included). -/
def subCount (pat : List Char) : List Char → Nat
  | [] => if pat.isEmpty then 1 else 0
  | c :: t => (if pat.isPrefixOf (c :: t) then 1 else 0) + subCount pat t

/-- Python `str.replace("\r", "")`: remove every carriage return. -/
def dropCR (l : List Char) : List Char :=
  l.filter (fun c => c ≠ '\r')

/-- Python `str.split("\n")`. -/
def splitNL (l : List Char) : List (List Char) :=
  l.splitOn '\n'

/-- Python `" ".join` / `"\n".join` on code-point lists. -/
def joinSep (sep : Char) (parts : List (List Char)) : List Char :=
  List.intercalate [sep] parts

/-!  ## Regex interpreter

`RE` is the abstract syntax of the regex fragment used by the source.
`reM` is a continuation-passing backtracking matcher over the input
suffix; `fuel` only serves termination and is chosen large enough for
every concrete run (each recursive call consumes one unit, and the
nesting depth of a match is bounded by pattern size times input length).
-/

/-- Regex abstract syntax.  `rep a lo hi lazy` is `a{lo,hi}` (`hi = none`
meaning unbounded) with lazy/greedy preference; `grp i a` is capture
group `i`; `look a` is the lookahead `(?=a)`; `bos`/`bol`/`eol`/`eos` are
`^` (no MULTILINE), `^` (MULTILINE), `$` (no MULTILINE) and `\Z`. -/
inductive RE where
  | eps : RE
  | one : (Char → Bool) → RE
  | seq : RE → RE → RE
  | alt : RE → RE → RE
  | rep : RE → Nat → Option Nat → Bool → RE
  | grp : Nat → RE → RE
  | look : RE → RE
  | bos : RE
  | bol : RE
  | eol : RE
  | eos : RE

/-- A capture-group record: group index paired with its span (character
start and end offsets in the whole input).  Prepended on capture, so the
head occurrence of an index is the most recent capture (Python keeps the
last one). -/
abbrev Groups := List (Nat × Nat × Nat)

/-- Backtracking matcher.  `full` is the whole input (for the zero-width
assertions), `rem` the suffix at offset `pos`, `gs` the captures so far
and `k` the continuation receiving the position, suffix and captures
after `r`.  Alternation tries the left branch first; greedy repetition
tries to consume first, lazy repetition tries the continuation first; a
repetition body must consume at least one character for the loop to
continue (Python likewise stops repeating on an empty iteration). -/
def reM (full : List Char) :
    Nat → RE → Nat → List Char → Groups →
    (Nat → List Char → Groups → Option (Nat × Groups)) → Option (Nat × Groups)
  | 0, _, _, _, _, _ => Option.none
  | fuel + 1, r, pos, rem, gs, k =>
    match r with
    | .eps => k pos rem gs
    | .one p =>
      match rem with
      | [] => Option.none
      | c :: rest => if p c then k (pos + 1) rest gs else Option.none
    | .seq a b =>
      reM full fuel a pos rem gs (fun p2 r2 g2 => reM full fuel b p2 r2 g2 k)
    | .alt a b =>
      (reM full fuel a pos rem gs k) <|> (reM full fuel b pos rem gs k)
    | .grp i a =>
      reM full fuel a pos rem gs (fun p2 r2 g2 => k p2 r2 ((i, pos, p2) :: g2))
    | .look a =>
      match reM full fuel a pos rem gs (fun p2 _ g2 => some (p2, g2)) with
      | some (_, g2) => k pos rem g2
      | Option.none => Option.none
    | .bos => if pos = 0 then k pos rem gs else Option.none
    | .bol =>
      if pos = 0 || full.getD (pos - 1) ' ' = '\n' then k pos rem gs else Option.none
    | .eol =>
      if rem.isEmpty || (rem = ['\n']) then k pos rem gs else Option.none
    | .eos => if rem.isEmpty then k pos rem gs else Option.none
    | .rep a lo hi lazy =>
      match lo with
      | n + 1 =>
        reM full fuel a pos rem gs
          (fun p2 r2 g2 => reM full fuel (.rep a n (hi.map (· - 1)) lazy) p2 r2 g2 k)
      | 0 =>
        match hi with
        | some 0 => k pos rem gs
        | _ =>
          if lazy then
            (k pos rem gs) <|>
              reM full fuel a pos rem gs (fun p2 r2 g2 =>
                if pos < p2 then
                  reM full fuel (.rep a 0 (hi.map (· - 1)) lazy) p2 r2 g2 k
                else Option.none)
          else
            (reM full fuel a pos rem gs (fun p2 r2 g2 =>
                if pos < p2 then
                  reM full fuel (.rep a 0 (hi.map (· - 1)) lazy) p2 r2 g2 k
                else Option.none)) <|>
              (k pos rem gs)

/-- Result of a successful regex operation: full-match span and captures. -/
structure RMatch where
  start : Nat
  stop : Nat
  groups : Groups

/-- Fuel bound for one anchored match attempt. -/
def reFuel (len : Nat) : Nat :=
  (len + 8) * 64

/-- Anchored match attempt at offset `pos` (`re.match` when `pos = 0`). -/
def reMatchAt (r : RE) (full : List Char) (pos : Nat) (rem : List Char) :
    Option RMatch :=
  match reM full (reFuel full.length) r pos rem [] (fun p _ g => some (p, g)) with
  | some (e, g) => some ⟨pos, e, g⟩
  | Option.none => Option.none

/-- Python `re.match(r, s)` as a Boolean. -/
def reMatchB (r : RE) (s : List Char) : Bool :=
  (reMatchAt r s 0 s).isSome

/-- Leftmost search from offset `pos`: try an anchored match at each
successive position (this is exactly `re.search`'s strategy). -/
def reSearchFromAux (r : RE) (full : List Char) :
    Nat → Nat → List Char → Option RMatch
  | 0, _, _ => Option.none
  | f + 1, pos, rem =>
    match reMatchAt r full pos rem with
    | some m => some m
    | Option.none =>
      match rem with
      | [] => Option.none
      | _ :: rest => reSearchFromAux r full f (pos + 1) rest

/-- `re.search` starting at offset `pos`. -/
def reSearchFrom (r : RE) (full : List Char) (pos : Nat) : Option RMatch :=
  reSearchFromAux r full (full.length + 1 - pos) pos (full.drop pos)

/-- Python `re.search(r, s)`. -/
def reSearch (r : RE) (s : List Char) : Option RMatch :=
  reSearchFrom r s 0

/-- Python `re.finditer(r, s)`: successive non-overlapping leftmost
matches; after an empty match the scan advances one position. -/
def reFinditerAux (r : RE) (full : List Char) : Nat → Nat → List RMatch
  | 0, _ => []
  | f + 1, pos =>
    match reSearchFrom r full pos with
    | Option.none => []
    | some m =>
      m :: reFinditerAux r full f (if m.start < m.stop then m.stop else m.stop + 1)

/-- Python `re.finditer(r, s)`. -/
def reFinditer (r : RE) (s : List Char) : List RMatch :=
  reFinditerAux r s (s.length + 1) 0

/-- `m.group i` of a match over input `s`: span of the most recent capture
of group `i`, or `none` if the group did not take part in the match. -/
def grpSpan (m : RMatch) (i : Nat) : Option (Nat × Nat) :=
  (m.groups.find? (fun e => e.1 = i)).map (fun e => e.2)

/-- `m.group i` as text. -/
def grpVal (s : List Char) (m : RMatch) (i : Nat) : Option (List Char) :=
  (grpSpan m i).map (fun sp => (s.drop sp.1).take (sp.2 - sp.1))

/-- Python `re.sub(r, "", s)`: remove every non-overlapping match. -/
def reSubEmpty (r : RE) (s : List Char) : List Char :=
  let ms := reFinditer r s
  let rec go (pos : Nat) : List RMatch → List Char
    | [] => s.drop pos
    | m :: rest => ((s.drop pos).take (m.start - pos)) ++ go m.stop rest
  go 0 ms

/-!  ## Pattern helper constructors (plain transcription aids) -/

/-- Literal character. -/
def rCh (c : Char) : RE := RE.one (fun x => x = c)

/-- Literal string. -/
def rLit (s : String) : RE :=
  s.toList.foldr (fun c acc => RE.seq (rCh c) acc) RE.eps

/-- `\s*`. -/
def rSp0 : RE := RE.rep (RE.one isPySpace) 0 Option.none false

/-- `\s+`. -/
def rSp1 : RE := RE.rep (RE.one isPySpace) 1 Option.none false

/-- `\d`. -/
def rD : RE := RE.one isPyDigit

/-- `\d+`. -/
def rD1 : RE := RE.rep rD 1 Option.none false

/-- `\d{lo,hi}`. -/
def rDrange (lo hi : Nat) : RE := RE.rep rD lo (some hi) false

/-- Sequence of a list of regexes. -/
def rSeqL (l : List RE) : RE := l.foldr RE.seq RE.eps

/-- Alternation of a non-empty list (left-preferring, like `(a|b|c)`). -/
def rAltL : List RE → RE
  | [] => RE.one (fun _ => false)
  | [r] => r
  | r :: rest => RE.alt r (rAltL rest)

/-- A fixed phrase with `\s*` tolerated between the characters, e.g. the
source's `창\s*의\s*적\s*체\s*험\s*활\s*동\s*상\s*황`. -/
def rTol (s : String) : RE :=
  match s.toList with
  | [] => RE.eps
  | c :: rest => rSeqL (rCh c :: rest.map (fun x => RE.seq rSp0 (rCh x)))


/-!  ## Transcribed patterns of `pdf_parser.py`

(Hangul is not a Lean identifier character, so the pattern constants get
ASCII names; each doc comment quotes the source regex verbatim.) -/

/-- `창\s*의\s*적\s*체\s*험\s*활\s*동\s*상\s*황` — the 창체 section title. -/
def pCaTitle : RE := rTol "창의적체험활동상황"

/-- `(?:봉\s*사\s*활\s*동\s*실\s*적|교\s*과\s*학\s*습\s*발\s*달\s*상\s*황)` —
page-level end of the 창체 span in the table extractor. -/
def pCaPageEnd : RE := RE.alt (rTol "봉사활동실적") (rTol "교과학습발달상황")

/-- `(\n\d+\.\s*(?:봉사활동|교과학습|독서활동|행동특성)|봉\s*사\s*활\s*동\s*실\s*적)` —
end pattern of the 창체 section in the text extractor. -/
def pCaSectEnd : RE :=
  RE.grp 1 (RE.alt
    (rSeqL [rCh '\n', rD1, rCh '.', rSp0,
      rAltL [rLit "봉사활동", rLit "교과학습", rLit "독서활동", rLit "행동특성"]])
    (rTol "봉사활동실적"))

/-- `\n(\d)?\s*(자율활동|동아리활동|진로활동)\s+(\d+)\s*\n` — activity-block
boundary of the text-based activity extractor. -/
def pActSplit : RE :=
  rSeqL [rCh '\n',
    RE.rep (RE.grp 1 rD) 0 (some 1) false,
    rSp0,
    RE.grp 2 (rAltL [rLit "자율활동", rLit "동아리활동", rLit "진로활동"]),
    rSp1,
    RE.grp 3 rD1,
    rSp0, rCh '\n']

/-- `[가-힣]`. -/
def isHangul (c : Char) : Bool := '가' ≤ c && c ≤ '힣'

/-- `\([가-힣][가-힣\s·:]*\)\s*\(\d+시간\)` — "(topic)(N hours)" club marker. -/
def pClubMarker : RE :=
  rSeqL [rCh '(',
    RE.one isHangul,
    RE.rep (RE.one (fun c => isHangul c || isPySpace c || c = '·' || c = ':'))
      0 Option.none false,
    rCh ')', rSp0, rCh '(', rD1, rLit "시간", rCh ')']

/-- `희망분야[\s\t]+(.+?)(?:\n|$)` — inline career-aspiration line inside a
content cell (no DOTALL: `.` excludes the newline; `[\s\t]` equals `\s`). -/
def pHopeInline : RE :=
  rSeqL [rLit "희망분야",
    RE.rep (RE.one isPySpace) 1 Option.none false,
    RE.grp 1 (RE.rep (RE.one (fun c => c ≠ '\n')) 1 Option.none true),
    RE.alt (rCh '\n') RE.eol]

/-- The eight noise patterns of `_문서_꼬리`. -/
def pNoiseList : List RE :=
  [ rSeqL [RE.grp 1 (RE.alt (rLit "고등학교") (rLit "학교")), rSp1,
      rDrange 4 4, rLit "년", rSp1, rD1, rLit "월"],
    rSeqL [rLit "발급번호", rSp0, rCh ':'],
    rSeqL [rDrange 1 3, rCh '.', rDrange 1 3, rCh '.', rDrange 1 3, rCh '.', rDrange 1 3],
    rSeqL [rLit "전화번호", rSp1, rDrange 2 3, rCh '-'],
    RE.alt (rTol "담당자") (rLit "담당부서"),
    rTol "학교생활기록부",
    rLit "주민등록번호",
    rTol "고등학교장" ]

/-- `^(학년|영역|시간|특기사항|창의적|창 의 적)\s*$` used with `re.match`. -/
def pCaHeaderLine : RE :=
  rSeqL [RE.bos,
    RE.grp 1 (rAltL [rLit "학년", rLit "영역", rLit "시간", rLit "특기사항",
      rLit "창의적", rLit "창 의 적"]),
    rSp0, RE.eol]

/-- `^(반|번호|이름|\d+\s*반)` used with `re.match`. -/
def pBanNoName : RE :=
  rSeqL [RE.bos,
    RE.grp 1 (rAltL [rLit "반", rLit "번호", rLit "이름", rSeqL [rD1, rSp0, rLit "반"]])]

/-- `.*영역\s+시간\s+특기사항` used with `re.match` (no DOTALL). -/
def pTableHeaderLine : RE :=
  rSeqL [RE.rep (RE.one (fun c => c ≠ '\n')) 0 Option.none false,
    rLit "영역", rSp1, rLit "시간", rSp1, rLit "특기사항"]

/-- `^[123]$` used with `re.match` — a lone grade-digit cell. -/
def pGradeCell : RE :=
  rSeqL [RE.bos, RE.one (fun c => c = '1' || c = '2' || c = '3'), RE.eol]

/-- `^\d{1,3}$` used with `re.match` — a lone 1–3 digit number cell. -/
def pHourCell : RE := rSeqL [RE.bos, rDrange 1 3, RE.eol]

/-- `^희망분야` used with `re.match`. -/
def pHopeLine : RE := rSeqL [RE.bos, rLit "희망분야"]

/-- `과[\s\r]*목[\s\r]+세[\s\r]*부[\s\r]*능[\s\r]*력[\s\r]*및[\s\r]*특[\s\r]*기[\s\r]*사[\s\r]*항`
— start of the 세특 section (`[\s\r]` equals `\s`). -/
def pSubjStart : RE :=
  rSeqL [rCh '과', rSp0, rCh '목', rSp1, rCh '세', rSp0, rCh '부', rSp0, rCh '능',
    rSp0, rCh '력', rSp0, rCh '및', rSp0, rCh '특', rSp0, rCh '기', rSp0, rCh '사',
    rSp0, rCh '항']

/-- `\n\d+\.\s*(?:독서활동|행동특성)` — end of the 세특 section. -/
def pSubjEnd : RE :=
  rSeqL [rCh '\n', rD1, rCh '.', rSp0, RE.alt (rLit "독서활동") (rLit "행동특성")]

/-- `\(1학기\)` — 세특 fallback anchor. -/
def pTerm1 : RE := rLit "(1학기)"

/-- `\[(\d)학년\]\r?` — grade-block header of the 세특 section. -/
def pGradeBlock : RE :=
  rSeqL [rCh '[', RE.grp 1 rD, rLit "학년", rCh ']',
    RE.rep (rCh '\r') 0 (some 1) false]

/-- `\((\d)학기\)(.*?)(?:\s*[\[【][^】\]]*[\]】])?\s*[:：]\s*(.+?)(?=\(\d학기\)|\Z)`
with DOTALL (`.` matches every character) — one 세특 entry. -/
def pSubjEntry : RE :=
  rSeqL [rCh '(', RE.grp 1 rD, rLit "학기", rCh ')',
    RE.grp 2 (RE.rep (RE.one (fun _ => true)) 0 Option.none true),
    RE.rep (rSeqL [rSp0,
        RE.one (fun c => c = '[' || c = '【'),
        RE.rep (RE.one (fun c => c ≠ '】' && c ≠ ']')) 0 Option.none false,
        RE.one (fun c => c = ']' || c = '】')])
      0 (some 1) false,
    rSp0, RE.one (fun c => c = ':' || c = '：'), rSp0,
    RE.grp 3 (RE.rep (RE.one (fun _ => true)) 1 Option.none true),
    RE.look (RE.alt (rSeqL [rCh '(', rD, rLit "학기", rCh ')']) RE.eos)]

/-- `\s*[\[【][^】\]]*[\]】]\s*` — bracketed annotation stripped from 세특
subject names by `re.sub`. -/
def pBracketNote : RE :=
  rSeqL [rSp0, RE.one (fun c => c = '[' || c = '【'),
    RE.rep (RE.one (fun c => c ≠ '】' && c ≠ ']')) 0 Option.none false,
    RE.one (fun c => c = ']' || c = '】'), rSp0]

/-- `^\s*(과\s*목|세\s*부\s*능\s*력)\s*$` used with `re.match` — 세특 header
stop-line. -/
def pSubjHeaderLine : RE :=
  rSeqL [RE.bos, rSp0,
    RE.grp 1 (RE.alt (rTol "과목") (rTol "세부능력")),
    rSp0, RE.eol]

/-- `\d+\.\s*행\s*동\s*특\s*성\s*및\s*종\s*합\s*의\s*견` — start of the 행특
section. -/
def pBehavStart : RE :=
  rSeqL [rD1, rCh '.', rSp0, rTol "행동특성및종합의견"]

/-- `\n\d+\.\s*[가-힣]` — end of the 행특 section. -/
def pBehavEnd : RE :=
  rSeqL [rCh '\n', rD1, rCh '.', rSp0, RE.one isHangul]

/-- `학\s*년\s+행\s*동\s*특\s*성\s*및\s*종\s*합\s*의\s*견\s*\n?` — repeated
column-header line removed by `re.sub`. -/
def pBehavHeader : RE :=
  rSeqL [rCh '학', rSp0, rCh '년', rSp1, rTol "행동특성및종합의견", rSp0,
    RE.rep (rCh '\n') 0 (some 1) false]

/-- `(?:^|\n)(\d)(?=\s*\n|\s+[^\/\d])` with MULTILINE — grade-block marker
of the 행특 section (`^` is the MULTILINE `bol`). -/
def pBehavGrade : RE :=
  rSeqL [RE.alt RE.bol (rCh '\n'),
    RE.grp 1 rD,
    RE.look (RE.alt (rSeqL [rSp0, rCh '\n'])
      (rSeqL [rSp1, RE.one (fun c => c ≠ '/' && !(isPyDigit c))]))]

/-- `^(학년|반|번호|이름|\d+\s*반)\s*$` used with `re.match` — 행특 header
stop-line. -/
def pBehavHeaderLine : RE :=
  rSeqL [RE.bos,
    RE.grp 1 (rAltL [rLit "학년", rLit "반", rLit "번호", rLit "이름",
      rSeqL [rD1, rSp0, rLit "반"]]),
    rSp0, RE.eol]

/-!  ## `pdf_parser.py` — internal utilities -/

/-- The character class `[ \t\r]` of `_공백_정제`'s substitution (note: no
newline). -/
def isSTR (c : Char) : Bool := c = ' ' || c = '\t' || c = '\r'

/-- Run-collapsing pass of `_공백_정제`: `re.sub(r"[ \t\r]+", " ", text)`.
`prevSp` records whether the previous character belonged to a run. -/
def sqAux (prevSp : Bool) : List Char → List Char
  | [] => []
  | c :: t =>
    if isSTR c then
      if prevSp then sqAux true t else ' ' :: sqAux true t
    else c :: sqAux false t

/-- `_공백_정제(text)`: collapse runs of space/tab/CR to a single space,
then strip. -/
def «공백_정제» (l : List Char) : List Char :=
  pyStrip (sqAux false l)

/-- `_비공개(text)`: `"공공기관의 정보공개" in text or "비공개" in text`. -/
def «비공개» (l : List Char) : Bool :=
  isSubL "공공기관의 정보공개".toList l || isSubL "비공개".toList l

/-- `_문서_꼬리(text)`: `any(re.search(p, text) for p in 노이즈_패턴)`. -/
def «문서_꼬리» (l : List Char) : Bool :=
  pNoiseList.any (fun p => (reSearch p l).isSome)

/-- A compiled pattern's first-match search, as consumed by `_섹션_추출`:
given the text, the span `(start, end)` of the first match, if any.
`re.search(p, s)` for a concrete pattern AST is lifted by `rePat`. -/
abbrev Pattern := List Char → Option (Nat × Nat)

/-- Lift a transcribed pattern AST to a `Pattern`. -/
def rePat (r : RE) : Pattern :=
  fun s => (reSearch r s).map (fun m => (m.start, m.stop))

/-- `_섹션_추출(full_text, 시작_패턴, 종료_패턴)`: everything after the end
of the first start-pattern match, truncated at the first end-pattern match
inside that remainder; empty when the start pattern is absent.  Total —
the source function never raises. -/
def «섹션_추출» (full : List Char) (startP endP : Pattern) : List Char :=
  match startP full with
  | Option.none => []
  | some se =>
    let body := full.drop se.2
    match endP body with
    | Option.none => body
    | some ee => body.take ee.1

/-!  ## `pdf_parser.py` — table-based activity extractor (`_창체_테이블_파싱`) -/

/-- `_활동_타입 = {"자율활동", "동아리활동", "진로활동"}`. -/
def actTypes : List (List Char) :=
  ["자율활동".toList, "동아리활동".toList, "진로활동".toList]

/-- One extracted activity record (a `{category, grade, career_hope,
original_text}` dict of the source; records built by the text-based
fallback carry no `career_hope` key, which consumers read back with
`.get("career_hope")` as `None`, embedded as the field being `none`). -/
structure ActRec where
  category : List Char
  grade : Int
  career_hope : Option (List Char)
  original_text : Option (List Char)
deriving DecidableEq, Repr

/-- `_정제_창체_내용(content)`: the 창체 cell-content noise filter. -/
def «정제_창체_내용» (content : List Char) : List Char :=
  let lines := (splitNL content).filterMap (fun line =>
    let ls := dropCR (pyStrip line)
    if ls.isEmpty then Option.none
    else if isSubL "당해학년도".toList ls || isSubL "내부검토 중".toList ls then Option.none
    else if «비공개» ls then Option.none
    else if «문서_꼬리» ls then Option.none
    else if reMatchB pCaHeaderLine ls then Option.none
    else if (reSearch pCaTitle ls).isSome then Option.none
    else if reMatchB pBanNoName ls then Option.none
    else if reMatchB pTableHeaderLine ls then Option.none
    else some ls)
  pyStrip (joinSep ' ' lines)

/-- Cell normalisation of the table extractor: `str(c or "").strip().replace("\r", "")`. -/
def normCell (c : Option (List Char)) : List Char :=
  dropCR (pyStrip (c.getD []))

/-- `int(c)` for a cell that matched `^[123]$`. -/
def cellDigit (c : List Char) : Int :=
  match c with
  | ['1'] => 1
  | ['2'] => 2
  | ['3'] => 3
  | _ => 0

/-- Python truthiness of an optional string (`None` and `""` are falsy). -/
def optTruthy (o : Option (List Char)) : Bool :=
  match o with
  | some s => !s.isEmpty
  | Option.none => false

/-- 형태 1 career-aspiration detection: the first cell equal to `희망분야`
whose successor cell is non-empty yields that successor. -/
def hopeCellScan : List (List Char) → Option (List Char)
  | c :: v :: rest =>
    if c = "희망분야".toList && !v.isEmpty then some v else hopeCellScan (v :: rest)
  | _ => Option.none

/-- The running merge map `결과` of the table extractor: insertion-ordered
association list keyed by `(current_grade, current_activity)`. -/
abbrev CaRes := List ((Int × List Char) × ActRec)

/-- Ordered-dict lookup. -/
def assocFind (l : CaRes) (k : Int × List Char) : Option ActRec :=
  (l.find? (fun e => e.1 = k)).map (fun e => e.2)

/-- Ordered-dict in-place value update (key already present). -/
def assocSet (k : Int × List Char) (v : ActRec) : CaRes → CaRes
  | [] => []
  | e :: t => if e.1 = k then (k, v) :: t else e :: assocSet k v t

/-- The skip set of step 6: category labels, header words, the aspiration
label and the empty cell. -/
def caSkipCells : List (List Char) :=
  actTypes ++ ["학년".toList, "영역".toList, "시간".toList, "특기사항".toList,
    "희망분야".toList, []]

/-- Body of the table extractor's row loop: one row updates the merge map
and the running `(current_grade, current_activity)` state. -/
def caRowStep (st : CaRes × Int × Option (List Char))
    (row : List (Option (List Char))) : CaRes × Int × Option (List Char) :=
  let (res, curGrade, curAct) := st
  if row.isEmpty then st
  else
    let cells := row.map normCell
    if cells.all (fun c => c.isEmpty) then st
    else
      let g := match cells.find? (fun c => reMatchB pGradeCell c) with
        | some c => cellDigit c
        | Option.none => curGrade
      let act := match cells.find? (fun c => actTypes.contains c) with
        | some a => some a
        | Option.none => curAct
      match act with
      | Option.none => (res, g, act)
      | some a =>
        let key : Int × List Char := (g, a)
        let hope1 : Option (List Char) :=
          if a = "진로활동".toList then hopeCellScan cells else Option.none
        let contentCells := cells.filter (fun c =>
          !(caSkipCells.contains c) && !(hope1 == some c) &&
            !(reMatchB pGradeCell c) && !(reMatchB pHourCell c))
        let (hope2, content) : Option (List Char) × List Char :=
          match contentCells with
          | [] => (hope1, [])
          | c0 :: cs =>
            let raw := cs.foldl (fun best c => if best.length < c.length then c else best) c0
            let (hope2, raw2) :=
              if a = "진로활동".toList && !hope1.isSome then
                match reSearch pHopeInline raw with
                | some m => ((grpVal raw m 1).map pyStrip, raw.take m.start ++ raw.drop m.stop)
                | Option.none => (hope1, raw)
              else (hope1, raw)
            (hope2, «정제_창체_내용» raw2)
        let hope := if a = "진로활동".toList then hope2 else Option.none
        let item : ActRec :=
          ⟨a, g, hope, if 15 < content.length then some content else Option.none⟩
        match assocFind res key with
        | Option.none => (res ++ [(key, item)], g, act)
        | some ex =>
          let ex1 :=
            if a = "진로활동".toList && optTruthy hope && !(optTruthy ex.career_hope) then
              { ex with career_hope := hope }
            else ex
          let ex2 :=
            if !content.isEmpty then
              let existing := ex1.original_text.getD []
              if !(isSubL content existing) then
                let merged := pyStrip (existing ++ ' ' :: content)
                { ex1 with original_text :=
                    if 15 < merged.length then some merged else Option.none }
              else ex1
            else ex1
          (assocSet key ex2 res, g, act)

/-- One input page: extracted text plus extracted tables (each a list of
rows of optional cell strings), as supplied by the external
document-decoding collaborator. -/
structure Page where
  text : List Char
  tables : List (List (List (Option (List Char))))

/-- Body of the table loop: a table is processed only when the space-join
of its raw cells contains one of the three category labels. -/
def caTableStep (st : CaRes × Int × Option (List Char))
    (table : List (List (Option (List Char)))) : CaRes × Int × Option (List Char) :=
  if table.isEmpty then st
  else
    let flat := joinSep ' ' ((table.map (fun row => row.map (fun c => c.getD []))).flatten)
    if !(actTypes.any (fun t => isSubL t flat)) then st
    else table.foldl caRowStep st

/-- The whole-extractor state: merge map, running grade/category and the
`창체_시작됨` flag. -/
structure CaState where
  res : CaRes
  curGrade : Int
  curAct : Option (List Char)
  started : Bool

/-- Body of the page loop of `_창체_테이블_파싱`. -/
def caPageStep (st : CaState) (page : Page) : CaState :=
  let started1 := if (reSearch pCaTitle page.text).isSome then true else st.started
  let started2 :=
    if started1 && (reSearch pCaPageEnd page.text).isSome then false else started1
  if !started2 && !(reSearch pCaTitle page.text).isSome then
    { st with started := started2 }
  else
    let r := page.tables.foldl caTableStep (st.res, st.curGrade, st.curAct)
    ⟨r.1, r.2.1, r.2.2, started2⟩

/-- Sort rank of step 8: `순서 = {"자율활동": 0, "동아리활동": 1, "진로활동": 2}`
with default 9. -/
def catRank (c : List Char) : Nat :=
  if c = "자율활동".toList then 0
  else if c = "동아리활동".toList then 1
  else if c = "진로활동".toList then 2
  else 9

/-- The sort key order of step 8: Python tuple comparison of
`(grade, 순서.get(category, 9))`. -/
def actKeyLe (a b : ActRec) : Prop :=
  a.grade < b.grade ∨ (a.grade = b.grade ∧ catRank a.category ≤ catRank b.category)

instance : DecidableRel actKeyLe := fun a b => by
  unfold actKeyLe; infer_instance

/-- `_창체_테이블_파싱(pdf)`: fold the page loop over the page sequence and
sort the merge map's values (Python `sorted` is a stable sort, as is
`List.insertionSort`). -/
def «창체_테이블_파싱» (pages : List Page) : List ActRec :=
  let st := pages.foldl caPageStep ⟨[], 1, Option.none, false⟩
  List.insertionSort actKeyLe (st.res.map (fun e => e.2))

/-!  ## `pdf_parser.py` — text-based fallback activity extractor (`_창체_파싱`) -/

/-- `봉\s*사\s*활\s*동\s*실\s*적` — volunteer-record banner searched inside a
segment's raw content. -/
def pVolunteer : RE := rTol "봉사활동실적"

/-- `int(g)` for a single-`\d` capture. -/
def digitToInt (l : List Char) : Int :=
  match l with
  | [c] => ((c.toNat - 48 : Nat) : Int)
  | _ => 0

/-- One boundary match of `분할_패턴`, with the sticky grade resolved:
grade, category (group 2), content start (`m.end()`) and match start. -/
structure CaSeg where
  grade : Int
  cat : List Char
  contentStart : Nat
  matchStart : Nat

/-- Resolve the sticky `current_grade` (initial value 1) over the boundary
matches: a present group 1 updates it. -/
def caSegs (blk : List Char) : Int → List RMatch → List CaSeg
  | _, [] => []
  | cur, m :: rest =>
    let g := match grpVal blk m 1 with
      | some d => digitToInt d
      | Option.none => cur
    ⟨g, (grpVal blk m 2).getD [], m.stop, m.start⟩ :: caSegs blk g rest

/-- Stage 1 of `_창체_파싱`: cut each segment's raw content at the
volunteer banner, reassign content across segment boundaries (club-marker
rule, then page-header rule — the second overwrites the first's pending
when both fire), threading the pending carry-over.  `i` is the segment
index (the page-header rule skips the first segment). -/
def caPhase1 (blk : List Char) : Nat → List Char → List CaSeg →
    List (Int × List Char × List Char)
  | _, _, [] => []
  | i, pending, seg :: rest =>
    let endPos := match rest with
      | s2 :: _ => s2.matchStart
      | [] => blk.length
    let raw0 := pending ++ ((blk.drop seg.contentStart).take (endPos - seg.contentStart))
    let raw1 := match reSearch pVolunteer raw0 with
      | some m => raw0.take m.start
      | Option.none => raw0
    let step2 : List Char × List Char :=
      if seg.cat = "자율활동".toList &&
          ((rest.head?.map (fun s => s.cat)) == some "동아리활동".toList) then
        match reSearch pClubMarker raw1 with
        | some m => (raw1.drop m.start, raw1.take m.start)
        | Option.none => ([], raw1)
      else ([], raw1)
    let step3 : List Char × List Char :=
      if 0 < i && !rest.isEmpty then
        match reSearch pCaTitle step2.2 with
        | some m => (step2.2.drop m.stop, step2.2.take m.start)
        | Option.none => step2
      else step2
    (seg.grade, seg.cat, step3.2) :: caPhase1 blk (i + 1) step3.1 rest

/-- Stage 2 line filter of `_창체_파싱` (same as `_정제_창체_내용` but
without the `\r` removal and with the extra `^희망분야` stop-line). -/
def caLineFilter (raw : List Char) : List Char :=
  let lines := (splitNL raw).filterMap (fun line =>
    let ls := pyStrip line
    if ls.isEmpty then Option.none
    else if isSubL "당해학년도".toList ls || isSubL "내부검토 중".toList ls then Option.none
    else if «비공개» ls then Option.none
    else if «문서_꼬리» ls then Option.none
    else if reMatchB pCaHeaderLine ls then Option.none
    else if (reSearch pCaTitle ls).isSome then Option.none
    else if reMatchB pBanNoName ls then Option.none
    else if reMatchB pTableHeaderLine ls then Option.none
    else if reMatchB pHopeLine ls then Option.none
    else some ls)
  pyStrip (joinSep ' ' lines)

/-- `_창체_파싱(full_text)`: text-based activity extraction.  The produced
dicts have no `career_hope` key (read back as `None`), so the field is
`none`. -/
def «창체_파싱» (full : List Char) : List ActRec :=
  let blk0 := «섹션_추출» full (rePat pCaTitle) (rePat pCaSectEnd)
  if blk0.isEmpty then []
  else
    let blk := dropCR blk0
    let ms := reFinditer pActSplit blk
    let segs := caSegs blk 1 ms
    let pending0 := match ms with
      | m :: _ => blk.take m.start
      | [] => []
    (caPhase1 blk 0 pending0 segs).map (fun gcr =>
      let content := caLineFilter gcr.2.2
      if 15 < content.length then ⟨gcr.2.1, gcr.1, Option.none, some content⟩
      else ⟨gcr.2.1, gcr.1, Option.none, Option.none⟩)

/-!  ## `pdf_parser.py` — subject-remark extractor (`_세특_파싱`) -/

/-- One extracted subject-remark record. -/
structure SubjRec where
  grade : Int
  subject_name : List Char
  original_text : List Char
deriving DecidableEq, Repr

/-- Per-grade block spans of the 세특 section: `(grade, start, end)` from
the `[N학년]` headers; content before the first header is attributed to
`max(1, firstGrade - 1)` when longer than 200 characters. -/
def subjBlocks (sect : List Char) (gms : List RMatch) : List (Int × Nat × Nat) :=
  let rec go : List RMatch → List (Int × Nat × Nat)
    | [] => []
    | m :: rest =>
      (digitToInt ((grpVal sect m 1).getD []), m.stop,
        match rest with
        | m2 :: _ => m2.start
        | [] => sect.length) :: go rest
  match gms with
  | [] => [(1, 0, sect.length)]
  | m0 :: _ =>
    (if 200 < m0.start then
      [(max 1 (digitToInt ((grpVal sect m0 1).getD []) - 1), 0, m0.start)]
     else []) ++ go gms

/-- `_세특_파싱(full_text)`. -/
def «세특_파싱» (full : List Char) : List SubjRec :=
  let sect0 := «섹션_추출» full (rePat pSubjStart) (rePat pSubjEnd)
  let sect :=
    if sect0.isEmpty then
      match reSearch pTerm1 full with
      | some m =>
        let body := full.drop m.start
        match reSearch pSubjEnd body with
        | some me => body.take me.start
        | Option.none => body
      | Option.none => []
    else sect0
  if sect.isEmpty then []
  else
    (subjBlocks sect (reFinditer pGradeBlock sect)).flatMap (fun gse =>
      let blk := (sect.drop gse.2.1).take (gse.2.2 - gse.2.1)
      if «비공개» blk then []
      else
        (reFinditer pSubjEntry blk).filterMap (fun m =>
          let subjectRaw := «공백_정제» ((grpVal blk m 2).getD [])
          let contentRaw := (grpVal blk m 3).getD []
          let name := «공백_정제» (reSubEmpty pBracketNote subjectRaw)
          if name.isEmpty || 30 < name.length then Option.none
          else
            let lines := (splitNL contentRaw).filterMap (fun line =>
              let ls := pyStrip line
              if ls.isEmpty || «비공개» ls then Option.none
              else if «문서_꼬리» ls then Option.none
              else if reMatchB pSubjHeaderLine ls then Option.none
              else some ls)
            let content := pyStrip (joinSep ' ' lines)
            if content.length < 20 then Option.none
            else some ⟨gse.1, name, content.take 3000⟩))

/-!  ## `pdf_parser.py` — behavior-remark extractor (`_행특_파싱`) -/

/-- One extracted behavior-remark record. -/
structure BehavRec where
  grade : Int
  original_text : List Char
deriving DecidableEq, Repr

/-- Grade filter of the 행특 extractor: `m.group(1).isdigit() and
1 <= int(m.group(1)) <= 3`. -/
def behavGradeOk (blk : List Char) (m : RMatch) : Bool :=
  match grpVal blk m 1 with
  | some [c] => isPyDigit c && decide (1 ≤ c.toNat - 48) && decide (c.toNat - 48 ≤ 3)
  | _ => false

/-- Keep only the first record of each grade, in document order. -/
def dedupGrade (seen : List Int) : List BehavRec → List BehavRec
  | [] => []
  | r :: t =>
    if seen.contains r.grade then dedupGrade seen t
    else r :: dedupGrade (r.grade :: seen) t

/-- `_행특_파싱(full_text)`. -/
def «행특_파싱» (full : List Char) : List BehavRec :=
  let blk0 := «섹션_추출» full (rePat pBehavStart) (rePat pBehavEnd)
  if blk0.isEmpty then []
  else
    let blk := reSubEmpty pBehavHeader blk0
    let ms := (reFinditer pBehavGrade blk).filter (behavGradeOk blk)
    let recs := ms.filterMap (fun m =>
      let startIdx := m.stop
      let endIdx := match ms.find? (fun nm => m.start < nm.start) with
        | some nm => nm.start
        | Option.none => blk.length
      let contentRaw := (blk.drop startIdx).take (endIdx - startIdx)
      let lines := (splitNL contentRaw).filterMap (fun line =>
        let ls := pyStrip line
        if ls.isEmpty || «비공개» ls then Option.none
        else if «문서_꼬리» ls then Option.none
        else if reMatchB pBehavHeaderLine ls then Option.none
        else some ls)
      let content := pyStrip (joinSep ' ' lines)
      if 20 < content.length then
        some (⟨digitToInt ((grpVal blk m 1).getD []), content.take 3000⟩ : BehavRec)
      else Option.none)
    dedupGrade [] recs

/-!  ## `pdf_parser.py` — entry point (`parse_pdf`) -/

/-- The `ValueError` raised at the whole-document guard (image-only PDF). -/
inductive PdfError where
  | unreadable (filename : String)
deriving DecidableEq, Repr

/-- The `{student_name, activities, subjects, behaviors, source_pdf}`
result of `parse_pdf`. -/
structure PdfResult where
  student_name : Option (List Char)
  activities : List ActRec
  subjects : List SubjRec
  behaviors : List BehavRec
  source_pdf : String
deriving DecidableEq, Repr

/-- Student-name cell scan: the first cell equal to `이름` whose successor
cell is non-empty yields that successor (cells normalised with
`str(c or "").strip()`, no `\r` removal in this loop). -/
def nameCellScan : List (List Char) → Option (List Char)
  | c :: v :: rest =>
    if c = "이름".toList && !v.isEmpty then some v else nameCellScan (v :: rest)
  | _ => Option.none

/-- The nested name-search loops of `parse_pdf` (first hit wins, the
`break` cascade). -/
def studentNameScan (pages : List Page) : Option (List Char) :=
  pages.findSome? (fun p =>
    p.tables.findSome? (fun t =>
      t.findSome? (fun row => nameCellScan (row.map (fun c => pyStrip (c.getD []))))))

/-- `parse_pdf(filepath)`: the extraction entry point, taking the decoded
page sequence (text and tables per page) and the file name.  The
whole-document guard samples the first two pages' concatenated text and
fails before any section-level work when it is shorter than 50 characters
after stripping. -/
def parse_pdf (pages : List Page) (filename : String) : Except PdfError PdfResult :=
  let sample := pyStrip ((pages.take 2).map Page.text).flatten
  if sample.length < 50 then .error (.unreadable filename)
  else
    let activities0 := «창체_테이블_파싱» pages
    let student_name := studentNameScan pages
    let full := joinSep '\n' (pages.map Page.text)
    let subjects := «세특_파싱» full
    let behaviors := «행특_파싱» full
    let activities := if activities0.isEmpty then «창체_파싱» full else activities0
    .ok ⟨student_name, activities, subjects, behaviors, filename⟩

/-!  ## `yaml_parser.py` — the structured-evaluation parser

The decoded YAML tree (`yaml.safe_load`) is embedded as `PyVal`: strings,
integers, lists, mappings (insertion-ordered association lists with the
unique-key property of Python dicts left implicit) and `None`.  Mapping
access on a non-mapping raises `AttributeError` in Python, embedded as the
`Except` error case. -/

inductive PyVal where
  | str : String → PyVal
  | int : Int → PyVal
  | list : List PyVal → PyVal
  | dict : List (PyVal × PyVal) → PyVal
  | none : PyVal

/-- Decimal digit character. -/
def digitChar : Nat → Char
  | 0 => '0' | 1 => '1' | 2 => '2' | 3 => '3' | 4 => '4'
  | 5 => '5' | 6 => '6' | 7 => '7' | 8 => '8' | _ + 9 => '9'

/-- Decimal digits of a natural number (`fuel` is `n + 1`, enough since
`n / 10 < n` for `n ≥ 10`). -/
def natDigitsAux : Nat → Nat → List Char
  | 0, _ => []
  | f + 1, n =>
    if n < 10 then [digitChar n]
    else natDigitsAux f (n / 10) ++ [digitChar (n % 10)]

/-- Python `str(n)` for a natural number. -/
def natDigits (n : Nat) : List Char := natDigitsAux (n + 1) n

/-- Python `str(n)` for an `int`. -/
def pyIntStr (n : Int) : List Char :=
  if n < 0 then '-' :: natDigits n.natAbs else natDigits n.toNat

mutual
/-- Python `repr(v)` (the form used inside container `str()`). -/
def pyRepr : PyVal → List Char
  | .str s => '\x27' :: s.toList ++ ['\x27']
  | .int n => pyIntStr n
  | .none => "None".toList
  | .list l => '[' :: pyReprList l ++ [']']
  | .dict l => '\x7b' :: pyReprDict l ++ ['\x7d']

/-- Comma-joined element reprs of a list. -/
def pyReprList : List PyVal → List Char
  | [] => []
  | [v] => pyRepr v
  | v :: rest => pyRepr v ++ ',' :: ' ' :: pyReprList rest

/-- Comma-joined `key: value` reprs of a dict. -/
def pyReprDict : List (PyVal × PyVal) → List Char
  | [] => []
  | [kv] => pyRepr kv.1 ++ ':' :: ' ' :: pyRepr kv.2
  | kv :: rest => pyRepr kv.1 ++ ':' :: ' ' :: pyRepr kv.2 ++ ',' :: ' ' :: pyReprDict rest
end

/-- Python `str(v)`: the string itself for strings, `repr` otherwise. -/
def pyStr : PyVal → List Char
  | .str s => s.toList
  | v => pyRepr v

mutual
/-- Python `==` on embedded values (structural equality). -/
def pyBeq : PyVal → PyVal → Bool
  | .str a, .str b => a = b
  | .int a, .int b => a = b
  | .none, .none => true
  | .list a, .list b => pyBeqL a b
  | .dict a, .dict b => pyBeqD a b
  | _, _ => false

/-- Elementwise `pyBeq` on lists. -/
def pyBeqL : List PyVal → List PyVal → Bool
  | [], [] => true
  | a :: as2, b :: bs2 => pyBeq a b && pyBeqL as2 bs2
  | _, _ => false

/-- Entrywise `pyBeq` on dict entry lists. -/
def pyBeqD : List (PyVal × PyVal) → List (PyVal × PyVal) → Bool
  | [], [] => true
  | a :: as2, b :: bs2 => pyBeq a.1 b.1 && pyBeq a.2 b.2 && pyBeqD as2 bs2
  | _, _ => false
end

/-- Python truthiness. -/
def pyTruthy : PyVal → Bool
  | .str s => !s.isEmpty
  | .int n => n != 0
  | .list l => !l.isEmpty
  | .dict l => !l.isEmpty
  | .none => false

/-- `dict.get(k, dflt)` (the stored value is returned even when it is
`None`, matching Python). -/
def pyGet (d : List (PyVal × PyVal)) (k : PyVal) (dflt : PyVal) : PyVal :=
  match d.find? (fun e => pyBeq e.1 k) with
  | some e => e.2
  | Option.none => dflt

/-- `isinstance(v, dict)`, with the mapping's entries. -/
def asDict : PyVal → Option (List (PyVal × PyVal))
  | .dict l => some l
  | _ => Option.none

/-- `_학년_파싱(key)`: an `int` key is returned as-is; otherwise
`re.match(r"(\d)", str(key))` — the leading character of `str(key)` when
it is a digit. -/
def «학년_파싱» (k : PyVal) : Option Int :=
  match k with
  | .int n => some n
  | _ =>
    match pyStr k with
    | c :: _ => if isPyDigit c then some ((c.toNat - 48 : Nat) : Int) else Option.none
    | [] => Option.none

/-- Python truthiness of `_학년_파싱`'s result (`None` and `0` are falsy). -/
def gradeTruthy : Option Int → Bool
  | some g => g != 0
  | Option.none => false

/-- `_비공개인지(value)`: `isinstance(value, str) and value.strip() == "비공개"`. -/
def «비공개인지» (v : PyVal) : Bool :=
  match v with
  | .str s => pyStrip s.toList = "비공개".toList
  | _ => false

/-!  ## `parse_yaml` -/

/-- The `AttributeError` Python raises when `.get`/`.items()` is called on
a non-mapping section value (propagated, not recovered). -/
inductive YamlError where
  | attributeError
deriving DecidableEq, Repr

/-- `학생정보` of the result. -/
structure StudentInfo where
  name : PyVal
  school : PyVal
  department : PyVal
  graduation_year : PyVal

/-- One `career_hopes` record. -/
structure YamlHope where
  grade : Int
  hope : List Char

/-- One `activities` record of the evaluation file. -/
structure YamlActivity where
  category : PyVal
  grade : Int
  career_hope : Option (List Char)
  evaluation : List Char
  reason : List Char

/-- One `subjects` record of the evaluation file. -/
structure YamlSubject where
  grade : Int
  subject_name : PyVal
  evaluation : List Char
  reason : List Char

/-- One `behaviors` record of the evaluation file. -/
structure YamlBehavior where
  grade : Int
  evaluation : List Char
  reason : List Char

/-- The full `parse_yaml` result. -/
structure YamlResult where
  student : StudentInfo
  career_hopes : List YamlHope
  activities : List YamlActivity
  subjects : List YamlSubject
  behaviors : List YamlBehavior
  source_yaml : String

/-- `str(evaluation).strip() if evaluation else ""`. -/
def evalField (v : PyVal) : List Char :=
  if pyTruthy v then pyStrip (pyStr v) else []

/-- `str(career_hope) if career_hope and not _비공개인지(career_hope) else None`. -/
def hopeField (v : PyVal) : Option (List Char) :=
  if pyTruthy v && !«비공개인지» v then some (pyStr v) else Option.none

/-- `parse_yaml(filepath)` on the decoded top-level mapping `data` (file
loading and YAML decoding happen outside the parser; a decode failure is
the `MalformedStructuredInput` path and never reaches this code). -/
def parse_yaml (data : List (PyVal × PyVal)) (filename : String) :
    Except YamlError YamlResult := do
  let infoV := pyGet data (.str "학생정보") (.dict [])
  let info ← match asDict infoV with
    | some l => pure l
    | Option.none => throw .attributeError
  let student : StudentInfo :=
    ⟨pyGet info (.str "성명") (.str ""), pyGet info (.str "학교") (.str ""),
      pyGet info (.str "학과") (.str ""), pyGet info (.str "졸업연도") .none⟩
  let career_hopes : List YamlHope :=
    match asDict (pyGet info (.str "희망분야") (.dict [])) with
    | some hs => hs.filterMap (fun kv =>
        let g? := «학년_파싱» kv.1
        if gradeTruthy g? && pyTruthy kv.2 && !«비공개인지» kv.2 then
          some ⟨g?.getD 0, pyStr kv.2⟩
        else Option.none)
    | Option.none => []
  let acts ← match asDict (pyGet data (.str "창의적_체험활동상황") (.dict [])) with
    | some l => pure l
    | Option.none => throw .attributeError
  let activities : List YamlActivity := acts.flatMap (fun cg =>
    match asDict cg.2 with
    | Option.none => []
    | some grades => grades.filterMap (fun ge =>
        let g? := «학년_파싱» ge.1
        if !(gradeTruthy g?) then Option.none
        else if «비공개인지» ge.2 then Option.none
        else match ge.2 with
          | .str s => some ⟨cg.1, g?.getD 0, Option.none, s.toList, []⟩
          | .dict content =>
            let evaluation := pyGet content (.str "평가내용") (.str "")
            let reason := pyGet content (.str "이유") (.str "")
            let hope := pyGet content (.str "희망분야") .none
            if «비공개인지» evaluation then Option.none
            else some ⟨cg.1, g?.getD 0, hopeField hope,
              evalField evaluation, evalField reason⟩
          | _ => Option.none))
  let subs ← match asDict (pyGet data (.str "세부능력_및_특기사항") (.dict [])) with
    | some l => pure l
    | Option.none => throw .attributeError
  let subjects : List YamlSubject := subs.flatMap (fun ge =>
    let g? := «학년_파싱» ge.1
    if !(gradeTruthy g?) then []
    else
      match asDict ge.2 with
      | Option.none => []
      | some sd => sd.filterMap (fun se =>
          if pyBeq se.1 (.str "세특_전체") then Option.none
          else if «비공개인지» se.2 then Option.none
          else match se.2 with
            | .str s => some ⟨g?.getD 0, se.1, s.toList, []⟩
            | .dict content =>
              let evaluation := pyGet content (.str "평가내용") (.str "")
              let reason := pyGet content (.str "이유") (.str "")
              if «비공개인지» evaluation then Option.none
              else some ⟨g?.getD 0, se.1, evalField evaluation, evalField reason⟩
            | _ => Option.none))
  let beh ← match asDict (pyGet data (.str "행동특성_및_종합의견") (.dict [])) with
    | some l => pure l
    | Option.none => throw .attributeError
  let behaviors : List YamlBehavior := beh.filterMap (fun ge =>
    let g? := «학년_파싱» ge.1
    if !(gradeTruthy g?) then Option.none
    else if «비공개인지» ge.2 then Option.none
    else match ge.2 with
      | .str s => some ⟨g?.getD 0, s.toList, []⟩
      | .dict content =>
        let evaluation := pyGet content (.str "평가내용") (.str "")
        let reason := pyGet content (.str "이유") (.str "")
        if «비공개인지» evaluation then Option.none
        else some ⟨g?.getD 0, evalField evaluation, evalField reason⟩
      | _ => Option.none)
  return ⟨student, career_hopes, activities, subjects, behaviors, filename⟩

/-!  ## `reference_service.py` — reconciliation / merge engine -/

/-- `dict.setdefault(key, []).append(text)`: append `text` to the entry's
fragment list, creating the entry (at the end, insertion order) if absent. -/
def sdAppend (l : List ((List Char × Int) × List (List Char)))
    (k : List Char × Int) (t : List Char) :
    List ((List Char × Int) × List (List Char)) :=
  match l with
  | [] => [(k, [t])]
  | e :: rest =>
    if e.1 = k then (e.1, e.2 ++ [t]) :: rest else e :: sdAppend rest k t

/-- `dict.setdefault(key, [])` for its side effect only: register the key
with an empty fragment list if absent. -/
def sdTouch (l : List ((List Char × Int) × List (List Char)))
    (k : List Char × Int) : List ((List Char × Int) × List (List Char)) :=
  match l with
  | [] => [(k, [])]
  | e :: rest => if e.1 = k then e :: rest else e :: sdTouch rest k

/-- Python dict assignment `d[k] = v`: update in place, append if new. -/
def bSet (l : List (Int × List Char)) (k : Int) (v : List Char) :
    List (Int × List Char) :=
  match l with
  | [] => [(k, v)]
  | e :: rest => if e.1 = k then (k, v) :: rest else e :: bSet rest k v

/-- The `원문_인덱스` produced by `_원문_인덱스_생성`. -/
structure RefIndex where
  activities : List ((List Char × Int) × Option (List Char))
  subjects : List ((List Char × Int) × List Char)
  behaviors : List (Int × List Char)

/-- The `activities_merged` accumulation loop. -/
def actMergedBuild (items : List ActRec) :
    List ((List Char × Int) × List (List Char)) :=
  items.foldl (fun acc item =>
    let key := (item.category, item.grade)
    let text := item.original_text.getD []
    if !text.isEmpty then sdAppend acc key text else sdTouch acc key) []

/-- The `subjects_merged` accumulation loop (no empty-key registration). -/
def subjMergedBuild (items : List SubjRec) :
    List ((List Char × Int) × List (List Char)) :=
  items.foldl (fun acc item =>
    let key := (item.subject_name, item.grade)
    let text := item.original_text
    if !text.isEmpty then sdAppend acc key text else acc) []

/-- `_원문_인덱스_생성(pdf_data)`: the three lookup maps keyed by
`(category, grade)`, `(subject_name, grade)` and `grade`. -/
def «원문_인덱스_생성» (pdf_data : Option PdfResult) : RefIndex :=
  match pdf_data with
  | Option.none => ⟨[], [], []⟩
  | some d =>
    ⟨(actMergedBuild d.activities).map (fun e =>
        (e.1, if e.2.isEmpty then Option.none else some (joinSep '\n' e.2))),
      (subjMergedBuild d.subjects).map (fun e => (e.1, joinSep '\n' e.2)),
      d.behaviors.foldl (fun acc item => bSet acc item.grade item.original_text) []⟩

/-- `원문_인덱스["activities"].get((ae["category"], ae["grade"]))`: the key
tuple compares the evaluation-side category (any value) with the
document-side category string; `.get` of an absent key and a stored `None`
both read as `None`. -/
def actLookup (idx : List ((List Char × Int) × Option (List Char)))
    (cat : PyVal) (g : Int) : Option (List Char) :=
  match idx.find? (fun e => pyBeq cat (.str (String.mk e.1.1)) && e.1.2 = g) with
  | some e => e.2
  | Option.none => Option.none

/-- `원문_인덱스["subjects"].get((se["subject_name"], se["grade"]))`. -/
def subjLookup (idx : List ((List Char × Int) × List Char))
    (name : PyVal) (g : Int) : Option (List Char) :=
  (idx.find? (fun e => pyBeq name (.str (String.mk e.1.1)) && e.1.2 = g)).map
    (fun e => e.2)

/-- `원문_인덱스["behaviors"].get(be["grade"])`. -/
def behLookup (idx : List (Int × List Char)) (g : Int) : Option (List Char) :=
  (idx.find? (fun e => e.1 = g)).map (fun e => e.2)

/-- A stored `RefStudent` row. -/
structure RefStudentR where
  name : PyVal
  school : PyVal
  department : PyVal
  graduation_year : PyVal
  source_pdf : Option String
  source_yaml : String

/-- A stored `RefActivity` row. -/
structure RefActivityR where
  category : PyVal
  grade : Int
  career_hope : Option (List Char)
  original_text : Option (List Char)
  evaluation : List Char
  reason : List Char

/-- A stored `RefSubject` row. -/
structure RefSubjectR where
  grade : Int
  subject_name : PyVal
  original_text : Option (List Char)
  evaluation : List Char
  reason : List Char

/-- A stored `RefBehavior` row. -/
structure RefBehaviorR where
  grade : Int
  original_text : Option (List Char)
  evaluation : List Char
  reason : List Char

/-- The full record set `레퍼런스_저장` hands to the reference database for
one student (the student row plus the four child-record lists). -/
structure RefRecords where
  student : RefStudentR
  career_hopes : List YamlHope
  activities : List RefActivityR
  subjects : List RefSubjectR
  behaviors : List RefBehaviorR

/-- The record-building stage of `레퍼런스_저장` (lines 109–176): build the
original-text index from the optional PDF parse, then left-outer join
every evaluation record against it.  The surrounding delete-then-insert of
a pre-existing student is the external replace-semantics transaction. -/
def «레퍼런스_레코드» (yaml : YamlResult) (pdf_data : Option PdfResult) : RefRecords :=
  let idx := «원문_인덱스_생성» pdf_data
  { student := ⟨yaml.student.name, yaml.student.school, yaml.student.department,
      yaml.student.graduation_year, pdf_data.map (fun d => d.source_pdf),
      yaml.source_yaml⟩,
    career_hopes := yaml.career_hopes,
    activities := yaml.activities.map (fun ae =>
      ⟨ae.category, ae.grade, ae.career_hope,
        actLookup idx.activities ae.category ae.grade, ae.evaluation, ae.reason⟩),
    subjects := yaml.subjects.map (fun se =>
      ⟨se.grade, se.subject_name, subjLookup idx.subjects se.subject_name se.grade,
        se.evaluation, se.reason⟩),
    behaviors := yaml.behaviors.map (fun be =>
      ⟨be.grade, behLookup idx.behaviors be.grade, be.evaluation, be.reason⟩) }

/-- `레퍼런스_저장(db, yaml_filepath)`: parse the YAML file, parse the
matching PDF when one exists (an extraction `ValueError` is caught and the
PDF treated as absent), and build the stored record set. -/
def «레퍼런스_저장» (yamlData : List (PyVal × PyVal)) (yamlName : String)
    (pdfIn : Option (List Page × String)) : Except YamlError RefRecords := do
  let y ← parse_yaml yamlData yamlName
  let pdf_data := match pdfIn with
    | some pg =>
      match parse_pdf pg.1 pg.2 with
      | .ok d => some d
      | .error _ => Option.none
    | Option.none => Option.none
  return «레퍼런스_레코드» y pdf_data

/-!  ## `client_service.py` — document-only ingestion -/

/-- A stored `UserStudent` row (`name` is always the `미확인` sentinel at
this stage; AI evaluation fields are left unset). -/
structure UserStudentR where
  name : String
  school : Option String
  department : Option String
  graduation_year : Option Int
  source_file : String
deriving DecidableEq

/-- A stored `UserActivity` row. -/
structure UserActivityR where
  category : List Char
  grade : Int
  career_hope : Option (List Char)
  original_text : Option (List Char)
  evaluation : Option (List Char)
  reason : Option (List Char)
deriving DecidableEq

/-- A stored `UserSubject` row. -/
structure UserSubjectR where
  grade : Int
  subject_name : List Char
  original_text : List Char
  evaluation : Option (List Char)
  reason : Option (List Char)
deriving DecidableEq

/-- A stored `UserBehavior` row. -/
structure UserBehaviorR where
  grade : Int
  original_text : List Char
  evaluation : Option (List Char)
  reason : Option (List Char)
deriving DecidableEq

/-- The record set `클라이언트_생기부_저장` hands to the client database. -/
structure UserRecords where
  student : UserStudentR
  activities : List UserActivityR
  subjects : List UserSubjectR
  behaviors : List UserBehaviorR
deriving DecidableEq

/-- `클라이언트_생기부_저장(db, pdf_path, filename)`: parse the uploaded
document (the guard's `ValueError` propagates) and store its records with
the evaluation fields unset. -/
def «클라이언트_생기부_저장» (pages : List Page) (pdfName filename : String) :
    Except PdfError UserRecords :=
  (parse_pdf pages pdfName).map (fun d =>
  { student := ⟨"미확인", Option.none, Option.none, Option.none, filename⟩,
    activities := d.activities.map (fun ae =>
      ⟨ae.category, ae.grade, ae.career_hope, ae.original_text,
        Option.none, Option.none⟩),
    subjects := d.subjects.map (fun se =>
      ⟨se.grade, se.subject_name, se.original_text, Option.none, Option.none⟩),
    behaviors := d.behaviors.map (fun be =>
      ⟨be.grade, be.original_text, Option.none, Option.none⟩) })

/-!  ## Auxiliary definitions for the statements (projections and concrete
inputs used by boundary instances, counterexamples and witnesses) -/

/-- The document-side activity records behind an optional PDF parse. -/
def pdfActsOf : Option PdfResult → List ActRec
  | some d => d.activities
  | Option.none => []

/-- The document-side subject records behind an optional PDF parse. -/
def pdfSubjsOf : Option PdfResult → List SubjRec
  | some d => d.subjects
  | Option.none => []

/-- The document-side behavior records behind an optional PDF parse. -/
def pdfBehsOf : Option PdfResult → List BehavRec
  | some d => d.behaviors
  | Option.none => []

/-- The entry list of the `학생정보 → 희망분야` mapping of a decoded
evaluation document (the entries `parse_yaml` folds into `career_hopes`). -/
def hopesEntriesOf (data : List (PyVal × PyVal)) : List (PyVal × PyVal) :=
  match asDict (pyGet data (.str "학생정보") (.dict [])) with
  | some info => (asDict (pyGet info (.str "희망분야") (.dict []))).getD []
  | Option.none => []

/-- A 3-page document whose first two pages extract to `""` and `"ab"`. -/
def guardPages : List Page :=
  [⟨[], []⟩, ⟨"ab".toList, []⟩, ⟨"xyz".toList, []⟩]

/-- 창체 fallback input whose surviving content is exactly 15 characters. -/
def actText15 : List Char :=
  "창의적 체험활동상황\n1 자율활동 10\nabcdefghijklmno".toList

/-- 창체 fallback input whose surviving content is exactly 16 characters. -/
def actText16 : List Char :=
  "창의적 체험활동상황\n1 자율활동 10\nabcdefghijklmnop".toList

/-- 세특 input whose surviving content is exactly 19 characters. -/
def subjText19 : List Char :=
  "과목 세부능력 및 특기사항\n[1학년]\n(1학기)수학: abcdefghijklmnopqrs".toList

/-- 세특 input whose surviving content is exactly 20 characters. -/
def subjText20 : List Char :=
  "과목 세부능력 및 특기사항\n[1학년]\n(1학기)수학: abcdefghijklmnopqrst".toList

/-- 행특 input whose surviving content is exactly 20 characters. -/
def behText20 : List Char :=
  "7. 행동특성 및 종합의견\n1\nabcdefghijklmnopqrst".toList

/-- 행특 input whose surviving content is exactly 21 characters. -/
def behText21 : List Char :=
  "7. 행동특성 및 종합의견\n1\nabcdefghijklmnopqrstu".toList

/-- First table-row content of the merge scenario (31 characters). -/
def mergeA : List Char := "Hello world this is long enough".toList

/-- Second table-row content of the merge scenario (41 characters; it
extends `mergeA`). -/
def mergeB : List Char := "Hello world this is long enough plus more".toList

/-- The merge-scenario page: one 창체 table whose two rows share the key
`(grade 1, 동아리활동)`. -/
def mergePage : Page :=
  { text := "창의적 체험활동상황".toList,
    tables := [[[some "1".toList, some "동아리활동".toList, some mergeA],
                [Option.none, Option.none, some mergeB]]] }

/-- Career-aspiration fill scenario: the first 진로활동 row carries content
but no aspiration, the second supplies the aspiration. -/
def hopeFillPage : Page :=
  { text := "창의적 체험활동상황".toList,
    tables := [[[some "1".toList, some "진로활동".toList,
                 some "진로 탐색 활동에 적극 참여하여 자신의 적성을 탐구하였음".toList],
                [some "희망분야".toList, some "백엔드 개발자".toList]]] }

/-- A one-page document that passes the whole-document guard (52 chars),
has no tables (so table extraction yields `[]`) and whose text yields one
fallback activity record. -/
def fallbackPages : List Page :=
  [{ text := "창의적 체험활동상황\n1 자율활동 10\n체육 한마당 행사에서 학급 대표로 참여하여 모범을 보였음".toList,
     tables := [] }]

/-- The client-service record set stored for `fallbackPages` (the `getD`
default is a marker with a set career aspiration, so the projections below
are non-vacuous). -/
def fallbackStored : UserRecords :=
  ((«클라이언트_생기부_저장» fallbackPages "s1.pdf" "s1.pdf").toOption).getD
    ⟨⟨"", Option.none, Option.none, Option.none, ""⟩, [], [], []⟩

/-- The first stored activity row of `fallbackStored` (the `headD` default
carries a set career aspiration, so the conclusion below is non-vacuous). -/
def fallbackAct : UserActivityR :=
  fallbackStored.activities.headD ⟨[], 0, some ['x'], Option.none, Option.none, Option.none⟩

/-- Evaluation data whose career-aspiration mapping has two distinct keys
parsing to the same grade. -/
def dupHopeData : List (PyVal × PyVal) :=
  [(.str "학생정보", .dict [(.str "희망분야",
      .dict [(.str "1학년", .str "웹 개발자"), (.str "1반", .str "보안 전문가")])])]

/-- Evaluation data whose career-aspiration keys parse to distinct grades. -/
def distinctHopeData : List (PyVal × PyVal) :=
  [(.str "학생정보", .dict [(.str "희망분야",
      .dict [(.str "1학년", .str "웹 개발자"), (.str "2학년", .str "보안 전문가")])])]

/-- `parse_yaml` result for `distinctHopeData` (the `getD` default has two
equal-grade records, so the conclusion below is non-vacuous). -/
def distinctHopeRes : YamlResult :=
  ((parse_yaml distinctHopeData "t.yaml").toOption).getD
    ⟨⟨.str "", .str "", .str "", .none⟩, [⟨1, []⟩, ⟨1, []⟩], [], [], [], "t.yaml"⟩

/-- Evaluation data exercising every redaction path: a redacted activity
entry, a surviving one with a redacted aspiration, a surviving subject and
behavior, and a redacted behavior. -/
def redactionData : List (PyVal × PyVal) :=
  [(.str "학생정보", .dict [(.str "희망분야", .dict [(.str "1학년", .str "개발자")])]),
   (.str "창의적_체험활동상황", .dict
     [(.str "자율활동", .dict [(.str "1학년", .str "비공개"), (.str "2학년", .str "성실함")]),
      (.str "진로활동", .dict
        [(.str "1학년", .dict [(.str "평가내용", .str "주도적임"),
           (.str "이유", .str "관찰 결과"), (.str "희망분야", .str "비공개")]),
         (.str "2학년", .dict [(.str "평가내용", .str "탐구심이 깊음"),
           (.str "희망분야", .str "개발자")])])]),
   (.str "세부능력_및_특기사항", .dict
     [(.str "1학년", .dict [(.str "수학", .dict [(.str "평가내용", .str "우수함")]),
        (.str "국어", .str "비공개")])]),
   (.str "행동특성_및_종합의견", .dict
     [(.str "1학년", .str "모범적임"), (.str "2학년", .str " 비공개 ")])]

/-- `parse_yaml` result for `redactionData` (the `getD` default consists of
sentinel-valued records, so the conclusions below are non-vacuous). -/
def redactionRes : YamlResult :=
  ((parse_yaml redactionData "t.yaml").toOption).getD
    ⟨⟨.str "", .str "", .str "", .none⟩, [⟨1, "비공개".toList⟩],
      [⟨.str "자율활동", 1, some "비공개".toList, "비공개".toList, []⟩,
       ⟨.str "진로활동", 1, some "비공개".toList, "비공개".toList, []⟩,
       ⟨.str "진로활동", 2, some "비공개".toList, "비공개".toList, []⟩],
      [⟨1, .str "수학", "비공개".toList, []⟩],
      [⟨1, "비공개".toList, []⟩], "t.yaml"⟩

/-- A parsed evaluation input for the merge-completeness witness: one
activity, subject and behavior record, none of whose keys occur in the
(absent) document parse. -/
def mcYaml : YamlResult :=
  ⟨⟨.str "김철수", .str "", .str "", .none⟩, [],
    [⟨.str "진로활동", 3, Option.none, "평가 내용".toList, "이유".toList⟩],
    [⟨2, .str "수학", "평가".toList, []⟩],
    [⟨1, "평가".toList, []⟩], "s1.yaml"⟩

/-- First parsed activity of `redactionRes` (`headD` default is
sentinel-valued, keeping the conclusions below non-vacuous). -/
def redactionAct1 : YamlActivity :=
  redactionRes.activities.headD ⟨.str "", 0, some "비공개".toList, "비공개".toList, []⟩

/-- Third parsed activity of `redactionRes`: the 진로활동 grade-2 entry
whose aspiration survives. -/
def redactionAct3 : YamlActivity :=
  (redactionRes.activities.drop 2).headD
    ⟨.str "", 0, some "비공개".toList, "비공개".toList, []⟩

/-- First parsed subject of `redactionRes`. -/
def redactionSubj : YamlSubject :=
  redactionRes.subjects.headD ⟨0, .str "", "비공개".toList, []⟩

/-- First parsed behavior of `redactionRes`. -/
def redactionBehav : YamlBehavior :=
  redactionRes.behaviors.headD ⟨0, "비공개".toList, []⟩

/-- First parsed career aspiration of `redactionRes`. -/
def redactionHope : YamlHope :=
  redactionRes.career_hopes.headD ⟨0, "비공개".toList⟩


/-- The merged record set for `mcYaml` with no document parse. -/
def mcMerged : RefRecords := «레퍼런스_레코드» mcYaml Option.none

/-- First merged activity row (the `headD` default has non-null original
text, keeping the conclusions below non-vacuous). -/
def mcAct : RefActivityR :=
  mcMerged.activities.headD ⟨.str "", 0, Option.none, some ['x'], ['x'], []⟩

/-- First merged subject row. -/
def mcSubj : RefSubjectR :=
  mcMerged.subjects.headD ⟨0, .str "", some ['x'], ['x'], []⟩

/-- First merged behavior row. -/
def mcBeh : RefBehaviorR :=
  mcMerged.behaviors.headD ⟨0, some ['x'], ['x'], []⟩


/-!  ## Theorems -/

/-- C5 — Section locator contract: `_섹션_추출` is a total function (never
raises); if the start pattern has no match the result is the empty string;
if the start pattern matches and the end pattern has no match in the
remainder after the start match's end, the result is that entire
remainder; otherwise the result is the remainder truncated at the first
end-pattern match. -/
theorem sectionLocator_contract (full : List Char) (ps pe : Pattern) :
    (ps full = Option.none → «섹션_추출» full ps pe = []) ∧
    (∀ s e, ps full = some (s, e) → pe (full.drop e) = Option.none →
        «섹션_추출» full ps pe = full.drop e) ∧
    (∀ s e s2 e2, ps full = some (s, e) → pe (full.drop e) = some (s2, e2) →
        «섹션_추출» full ps pe = (full.drop e).take s2) := by
  refine ⟨fun h => ?_, fun s e h1 h2 => ?_, fun s e s2 e2 h1 h2 => ?_⟩
  · simp only [«섹션_추출»]; rw [h]
  · simp only [«섹션_추출»]; rw [h1]; simp only []; rw [h2]
  · simp only [«섹션_추출»]; rw [h1]; simp only []; rw [h2]

/-- Witness for C5: each branch of the contract applied at a concrete text
and concrete pattern functions. -/
theorem sectionLocator_contract_witness :
    «섹션_추출» "abcdef".toList (fun _ => Option.none) (fun _ => Option.none) = [] ∧
    «섹션_추출» "abcdef".toList (fun _ => some (0, 2)) (fun _ => Option.none) =
      ("abcdef".toList).drop 2 ∧
    «섹션_추출» "abcdef".toList (fun _ => some (0, 2)) (fun _ => some (1, 3)) =
      (("abcdef".toList).drop 2).take 1 :=
  ⟨(sectionLocator_contract "abcdef".toList _ _).1 rfl,
   (sectionLocator_contract "abcdef".toList _ _).2.1 0 2 rfl rfl,
   (sectionLocator_contract "abcdef".toList _ _).2.2 0 2 1 3 rfl rfl⟩

/-- C2 — Whole-document guard: whenever the concatenated extracted text of
the first two pages is shorter than 50 characters after trimming,
`parse_pdf` fails with the image-only `ValueError` before any
section-level extraction. -/
theorem documentGuard (pages : List Page) (filename : String)
    (h : (pyStrip ((pages.take 2).map Page.text).flatten).length < 50) :
    parse_pdf pages filename = .error (.unreadable filename) := by
  unfold parse_pdf
  simp only [h, if_true]

/-- Witness for C2: the 3-page document whose first two pages extract to
`""` and `"ab"` (2 characters total) fails with the unreadable-document
error. -/
theorem documentGuard_witness :
    (pyStrip ((guardPages.take 2).map Page.text).flatten).length < 50 ∧
    parse_pdf guardPages "s1.pdf" = .error (.unreadable "s1.pdf") :=
  ⟨by decide, documentGuard guardPages "s1.pdf" (by decide)⟩

/-- The sort order of the table extractor is transitive. -/
instance : IsTrans ActRec actKeyLe := by
  constructor
  intro a b c hab hbc
  rcases hab with h | ⟨h1, h2⟩ <;> rcases hbc with h' | ⟨h1', h2'⟩
  · exact Or.inl (lt_trans h h')
  · exact Or.inl (h1' ▸ h)
  · exact Or.inl (h1 ▸ h')
  · exact Or.inr ⟨h1.trans h1', le_trans h2 h2'⟩

/-- The sort order of the table extractor is total. -/
instance : IsTotal ActRec actKeyLe := by
  constructor
  intro a b
  rcases lt_trichotomy a.grade b.grade with h | h | h
  · exact Or.inl (Or.inl h)
  · rcases Nat.le_total (catRank a.category) (catRank b.category) with h2 | h2
    · exact Or.inl (Or.inr ⟨h, h2⟩)
    · exact Or.inr (Or.inr ⟨h.symm, h2⟩)
  · exact Or.inr (Or.inl h)

/-- C7 — Table-extractor output ordering: for every page sequence the
record list returned by `_창체_테이블_파싱` is sorted by ascending grade
and, within a grade, by the fixed category rank 자율활동 < 동아리활동 <
진로활동 (the key order `actKeyLe`). -/
theorem tableExtractor_sorted (pages : List Page) :
    List.Sorted actKeyLe («창체_테이블_파싱» pages) := by
  unfold «창체_테이블_파싱»
  exact List.sorted_insertionSort actKeyLe _

/-- C8 counterexample — a structured-evaluation input without a `성명`
entry parses successfully and the stored Subject's name is the **empty
string** (no "unidentified" fallback on this path). -/
theorem subjectName_counterexample :
    («레퍼런스_저장» [] "s1.yaml" Option.none).map (fun r => r.student.name) =
      .ok (PyVal.str "") := rfl

/-- C8 amended — the document-extraction path always stores the sentinel
name `미확인` ("unidentified"), hence never the empty string; the
structured-evaluation path stores the parsed name unchanged (empty-string
default when the file omits it), so that name can be empty. -/
theorem subjectName_amended :
    (∀ pages pdfName filename,
      («클라이언트_생기부_저장» pages pdfName filename).map (fun r => r.student.name) =
        (parse_pdf pages pdfName).map (fun _ => "미확인")) ∧
    (∀ yaml pdf_data, («레퍼런스_레코드» yaml pdf_data).student.name = yaml.student.name) := by
  constructor
  · intro pages pdfName filename
    unfold «클라이언트_생기부_저장»
    cases parse_pdf pages pdfName <;> rfl
  · intro yaml pdf_data; rfl

/-- Every record built by the text-based fallback extractor has no
career-aspiration value. -/
theorem caParse_hope_none (full : List Char) (r : ActRec)
    (hr : r ∈ «창체_파싱» full) : r.career_hope = Option.none := by
  simp only [«창체_파싱»] at hr
  split at hr
  · exact absurd hr (List.not_mem_nil r)
  · rw [List.mem_map] at hr
    obtain ⟨x, _, hx⟩ := hr
    split at hx <;> rw [← hx]

/-- C10 — the text-based fallback activity extractor never yields a career
aspiration: every record it produces has `career_hope = none`, and when
table extraction yields the empty list, every activity record stored by
the document-only ingestion path has a null career-aspiration field. -/
theorem fallback_no_career_hope :
    (∀ full r, r ∈ «창체_파싱» full → r.career_hope = Option.none) ∧
    (∀ pages pdfName filename, «창체_테이블_파싱» pages = [] →
      ∀ res, «클라이언트_생기부_저장» pages pdfName filename = .ok res →
      ∀ u ∈ res.activities, u.career_hope = Option.none) := by
  refine ⟨caParse_hope_none, ?_⟩
  intro pages pdfName filename htab res hok u hu
  simp only [«클라이언트_생기부_저장», parse_pdf] at hok
  split at hok
  · exact absurd hok (by simp [Except.map])
  · rw [htab] at hok
    simp only [Except.map, List.isEmpty_nil, if_true] at hok
    injection hok with hok
    rw [← hok] at hu
    simp only [List.mem_map] at hu
    obtain ⟨ae, hae, hu⟩ := hu
    rw [← hu]
    exact caParse_hope_none _ ae hae

/-- Witness for C10: on `fallbackPages` table extraction is empty, the
client service stores exactly one activity record and its
career-aspiration field is null. -/
theorem fallback_no_career_hope_witness :
    «창체_테이블_파싱» fallbackPages = [] ∧
    fallbackStored.activities.length = 1 ∧
    fallbackAct.career_hope = Option.none :=
  ⟨by decide, by decide,
   fallback_no_career_hope.2 fallbackPages "s1.pdf" "s1.pdf" (by decide)
     fallbackStored rfl fallbackAct (by decide)⟩

/-- Grade-deduplication only removes records. -/
theorem mem_dedupGrade {r : BehavRec} :
    ∀ {seen : List Int} {l : List BehavRec}, r ∈ dedupGrade seen l → r ∈ l := by
  intro seen l
  induction l generalizing seen with
  | nil => intro h; exact absurd h (List.not_mem_nil r)
  | cons a t ih =>
    intro h
    unfold dedupGrade at h
    split at h
    · exact List.mem_cons_of_mem a (ih h)
    · rcases List.mem_cons.mp h with h | h
      · exact h ▸ List.mem_cons_self a t
      · exact List.mem_cons_of_mem a (ih h)

/-- Every record produced by the text-based activity extractor has either
no original text or original text longer than 15 characters. -/
theorem caParse_textlen (full : List Char) (r : ActRec)
    (hr : r ∈ «창체_파싱» full) :
    ∀ s, r.original_text = some s → 15 < s.length := by
  intro s hs
  simp only [«창체_파싱»] at hr
  split at hr
  · exact absurd hr (List.not_mem_nil r)
  · rw [List.mem_map] at hr
    obtain ⟨x, _, hx⟩ := hr
    split at hx
    · rw [← hx] at hs
      injection hs with hs
      rw [← hs]
      assumption
    · rw [← hx] at hs
      exact absurd hs (by simp)

/-- Every record produced by the subject-remark extractor carries original
text of at least 20 characters (the under-20 entries are discarded, not
nulled). -/
theorem subjParse_textlen (full : List Char) (r : SubjRec)
    (hr : r ∈ «세특_파싱» full) : 20 ≤ r.original_text.length := by
  simp only [«세특_파싱»] at hr
  repeat split at hr
  all_goals try exact absurd hr (List.not_mem_nil r)
  all_goals
    rw [List.mem_flatMap] at hr
    obtain ⟨b, _, hb⟩ := hr
    split at hb
    · exact absurd hb (List.not_mem_nil r)
    · rw [List.mem_filterMap] at hb
      obtain ⟨m, _, hm⟩ := hb
      split at hm
      · exact Option.noConfusion hm
      · split at hm
        · exact Option.noConfusion hm
        · injection hm with hm
          rw [← hm]
          simp only [List.length_take]
          omega

/-- Every record produced by the behavior-remark extractor carries
original text of more than 20 characters (the 20-or-fewer blocks are
discarded, not nulled). -/
theorem behavParse_textlen (full : List Char) (r : BehavRec)
    (hr : r ∈ «행특_파싱» full) : 20 < r.original_text.length := by
  simp only [«행특_파싱»] at hr
  split at hr
  · exact absurd hr (List.not_mem_nil r)
  · have hr2 := mem_dedupGrade hr
    rw [List.mem_filterMap] at hr2
    obtain ⟨m, _, hm⟩ := hr2
    split at hm
    · injection hm with hm
      rw [← hm]
      simp only [List.length_take]
      omega
    · exact Option.noConfusion hm

/-- C3 counterexample — a subject entry whose surviving content is exactly
20 characters is **kept with non-null original text** (the claim says a
20-character subject content yields null original text): `subjText20`
parses to one record whose original text is exactly that 20-character
content. -/
theorem thresholdLaw_counterexample :
    «세특_파싱» subjText20 =
      [⟨1, "수학".toList, "abcdefghijklmnopqrst".toList⟩] ∧
    ("abcdefghijklmnopqrst".toList).length = 20 :=
  ⟨by decide, by decide⟩

/-- C3 amended — thresholds per record type: an activity record's original
text, when present, is strictly longer than 15 characters (exactly 15
survives as a record with null text, 16 as non-null); subject entries with
surviving content under 20 characters are discarded entirely (19 produces
no record), while exactly 20 is kept with non-null text; behavior blocks
with surviving content of 20 or fewer characters are discarded (exactly 20
produces no record), 21 is kept with non-null text. -/
theorem thresholdLaw_amended :
    (∀ full r, r ∈ «창체_파싱» full →
      ∀ s, r.original_text = some s → 15 < s.length) ∧
    (∀ full r, r ∈ «세특_파싱» full → 20 ≤ r.original_text.length) ∧
    (∀ full r, r ∈ «행특_파싱» full → 20 < r.original_text.length) ∧
    «창체_파싱» actText15 =
      [⟨"자율활동".toList, 1, Option.none, Option.none⟩] ∧
    «창체_파싱» actText16 =
      [⟨"자율활동".toList, 1, Option.none, some "abcdefghijklmnop".toList⟩] ∧
    «세특_파싱» subjText19 = [] ∧
    «행특_파싱» behText20 = [] ∧
    «행특_파싱» behText21 = [⟨1, "abcdefghijklmnopqrstu".toList⟩] :=
  ⟨caParse_textlen, subjParse_textlen, behavParse_textlen,
   by decide, by decide, by decide, by decide, by decide⟩

/-- Witness for C3 (amended): the three universal threshold bounds applied
at concrete extractions. -/
theorem thresholdLaw_amended_witness :
    15 < ("abcdefghijklmnop".toList).length ∧
    20 ≤ ("abcdefghijklmnopqrst".toList).length ∧
    20 < ("abcdefghijklmnopqrstu".toList).length :=
  ⟨thresholdLaw_amended.1 actText16
      ⟨"자율활동".toList, 1, Option.none, some "abcdefghijklmnop".toList⟩
      (by decide) _ rfl,
   by
     have h := thresholdLaw_amended.2.1 subjText20
       ⟨1, "수학".toList, "abcdefghijklmnopqrst".toList⟩ (by decide)
     exact h,
   by
     have h := thresholdLaw_amended.2.2.1 behText21
       ⟨1, "abcdefghijklmnopqrstu".toList⟩ (by decide)
     exact h⟩

/-- C6 counterexample — the two scenario rows merge into one record whose
text **duplicates the first fragment**: the merged text is the first
content, a space, then the full second content, and since the second
content extends the first, the first fragment occurs twice in it (the
claim says the union is formed without duplicating the first fragment). -/
theorem tableMerge_counterexample :
    («창체_테이블_파싱» [mergePage]).map (fun r => r.original_text) =
      [some (mergeA ++ ' ' :: mergeB)] ∧
    subCount mergeA (mergeA ++ ' ' :: mergeB) = 2 :=
  ⟨by decide, by decide⟩

/-- C6 amended — merge by composite key: a subsequent qualifying row whose
(surviving, filter-invariant) content is not a substring of the
accumulated text appends its full content separated by a space — so a new
content that extends the accumulated text makes the earlier fragment
reappear inside the appended content; the scenario rows merge into one
record whose text is the first content, a space, then the whole second
content; and a missing career-aspiration value is filled in by a later row
that supplies one. -/
theorem tableMerge_amended :
    (∀ (res : CaRes) (g : Int) (a c : List Char) (ex : ActRec),
      normCell (some c) = c →
      c.isEmpty = false →
      c ∉ caSkipCells →
      reMatchB pGradeCell c = false →
      reMatchB pHourCell c = false →
      c ∉ actTypes →
      a ≠ "진로활동".toList →
      «정제_창체_내용» c = c →
      assocFind res (g, a) = some ex →
      isSubL c (ex.original_text.getD []) = false →
      caRowStep (res, g, some a) [Option.none, Option.none, some c] =
        (assocSet (g, a)
          { ex with original_text :=
              if 15 < (pyStrip ((ex.original_text.getD []) ++ ' ' :: c)).length then
                some (pyStrip ((ex.original_text.getD []) ++ ' ' :: c))
              else Option.none } res,
         g, some a)) ∧
    «창체_테이블_파싱» [mergePage] =
      [⟨"동아리활동".toList, 1, Option.none, some (mergeA ++ ' ' :: mergeB)⟩] ∧
    («창체_테이블_파싱» [hopeFillPage]).map (fun r => (r.career_hope, r.grade)) =
      [(some "백엔드 개발자".toList, 1)] := by
  refine ⟨?_, by decide, by decide⟩
  intro res g a c ex h1 h2 h3 h4 h5 h6 h7 h8 h9 h10
  have hnone : normCell Option.none = [] := rfl
  have hlit : "진로활동".toList = ['진', '로', '활', '동'] := rfl
  rw [hlit] at h7
  have e1 : reMatchB pGradeCell ([] : List Char) = false := by decide
  have e2 : ¬(([] : List Char) ∈ actTypes) := by decide
  have e3 : (([] : List Char) ∈ caSkipCells) := by decide
  simp only [caRowStep, hnone, h1]
  simp [hnone, h1, h2, h3, h4, h5, h6, h7, h8, h9, h10, e1, e2, e3]

/-- Witness for C6 (amended): the merge-step law applied at the scenario's
second row, with the state the first row leaves behind. -/
theorem tableMerge_amended_witness :
    caRowStep ([((1, "동아리활동".toList),
        ⟨"동아리활동".toList, 1, Option.none, some mergeA⟩)], 1,
        some "동아리활동".toList)
      [Option.none, Option.none, some mergeB] =
      (assocSet (1, "동아리활동".toList)
        { category := "동아리활동".toList, grade := 1, career_hope := Option.none,
          original_text :=
            if 15 < (pyStrip (mergeA ++ ' ' :: mergeB)).length then
              some (pyStrip (mergeA ++ ' ' :: mergeB))
            else Option.none }
        [((1, "동아리활동".toList),
          ⟨"동아리활동".toList, 1, Option.none, some mergeA⟩)],
       1, some "동아리활동".toList) :=
  tableMerge_amended.1 _ 1 "동아리활동".toList mergeB
    ⟨"동아리활동".toList, 1, Option.none, some mergeA⟩
    (by decide) (by decide) (by decide) (by decide) (by decide) (by decide)
    (by decide) (by decide) (by decide) (by decide)

/-- C9 counterexample — two distinct mapping keys (`"1학년"` and `"1반"`)
both parse to grade 1, and **both** survive into the career-aspiration
list: the later duplicate is not ignored. -/
theorem careerHope_counterexample :
    (parse_yaml dupHopeData "s1.yaml").map
        (fun r => r.career_hopes.map (fun h => (h.grade, h.hope))) =
      .ok [(1, "웹 개발자".toList), (1, "보안 전문가".toList)] := rfl

/-- On a successful parse, the career-aspiration list is exactly the
filtered image of the `희망분야` mapping entries. -/
theorem parse_yaml_career_hopes (data : List (PyVal × PyVal)) (fn : String)
    (res : YamlResult) (h : parse_yaml data fn = .ok res) :
    res.career_hopes = (hopesEntriesOf data).filterMap (fun kv =>
      if gradeTruthy («학년_파싱» kv.1) && pyTruthy kv.2 && !«비공개인지» kv.2 then
        some ⟨(«학년_파싱» kv.1).getD 0, pyStr kv.2⟩
      else Option.none) := by
  simp only [parse_yaml] at h
  split at h
  case h_2 => exact Except.noConfusion h
  case h_1 _ info heq =>
    unfold hopesEntriesOf
    rw [heq]
    split at h
    case h_2 => exact Except.noConfusion h
    case h_1 =>
      split at h
      case h_2 => exact Except.noConfusion h
      case h_1 =>
        split at h
        case h_2 => exact Except.noConfusion h
        case h_1 =>
          injection h with h
          rw [← h]
          cases hh : asDict (pyGet info (.str "희망분야") (.dict [])) with
          | none => simp [hh]
          | some hs => simp [hh]

/-- C9 amended — the parser performs no per-grade deduplication: each
qualifying mapping entry yields one record, so the career-aspiration list
has at most one record per grade exactly when the mapping's keys parse to
pairwise-distinct grades (two distinct keys parsing to the same grade both
survive, as the counterexample shows). -/
theorem careerHope_amended (data : List (PyVal × PyVal)) (fn : String)
    (res : YamlResult) (hok : parse_yaml data fn = .ok res)
    (hdist : (hopesEntriesOf data).Pairwise
      (fun a b => «학년_파싱» a.1 ≠ «학년_파싱» b.1)) :
    res.career_hopes.Pairwise (fun x y => x.grade ≠ y.grade) := by
  rw [parse_yaml_career_hopes data fn res hok]
  rw [List.pairwise_filterMap]
  refine hdist.imp ?_
  intro a b hne x hx y hy hxy
  rw [Option.mem_def] at hx hy
  split at hx
  case isFalse => exact Option.noConfusion hx
  case isTrue hca =>
    split at hy
    case isFalse => exact Option.noConfusion hy
    case isTrue hcb =>
      injection hx with hx
      injection hy with hy
      rw [← hx, ← hy] at hxy
      simp only [] at hxy
      apply hne
      cases ha : «학년_파싱» a.1 with
      | none => rw [ha] at hca; simp [gradeTruthy] at hca
      | some ga =>
        cases hb : «학년_파싱» b.1 with
        | none => rw [hb] at hcb; simp [gradeTruthy] at hcb
        | some gb =>
          rw [ha, hb] at hxy
          simp at hxy
          rw [hxy]

/-- Witness for C9 (amended): on an input whose two keys parse to distinct
grades, the parsed career-aspiration list has pairwise distinct grades. -/
theorem careerHope_amended_witness :
    distinctHopeRes.career_hopes.Pairwise (fun x y => x.grade ≠ y.grade) :=
  careerHope_amended distinctHopeData "t.yaml" distinctHopeRes rfl (by decide)

/-- Every digit character produced by `digitChar` is non-whitespace and is
not the sentinel's first character. -/

theorem digitChar_spec (d : Nat) : isPySpace (digitChar d) = false ∧ digitChar d ≠ '비' := by
  unfold digitChar
  rcases d with _|_|_|_|_|_|_|_|_|d
  case succ.succ.succ.succ.succ.succ.succ.succ.succ =>
    exact ⟨rfl, (by decide : ('9' : Char) ≠ '비')⟩
  all_goals exact ⟨by decide, by decide⟩

theorem natDigitsAux_head (f n : Nat) :
    ∃ d t, natDigitsAux (f + 1) n = digitChar d :: t := by
  induction f generalizing n with
  | zero =>
    unfold natDigitsAux
    split
    · refine ⟨n, [], ?_⟩; rfl
    · refine ⟨n % 10, [], ?_⟩; rfl
  | succ f ih =>
    unfold natDigitsAux
    split
    · refine ⟨n, [], ?_⟩; rfl
    · obtain ⟨d, t, hd⟩ := ih (n / 10)
      refine ⟨d, t ++ [digitChar (n % 10)], ?_⟩
      rw [hd]; rfl

theorem pyIntStr_head (n : Int) :
    ∃ c t, pyIntStr n = c :: t ∧ isPySpace c = false ∧ c ≠ '비' := by
  unfold pyIntStr
  split
  · exact ⟨'-', natDigits n.natAbs, rfl, by decide, by decide⟩
  · obtain ⟨d, t, hd⟩ := natDigitsAux_head n.toNat n.toNat
    obtain ⟨hs, hne⟩ := digitChar_spec d
    exact ⟨digitChar d, t, hd, hs, hne⟩

theorem pyStrip_cons_head (c : Char) (t : List Char) (hc : isPySpace c = false) :
    ∃ t2, pyStrip (c :: t) = c :: t2 := by
  unfold pyStrip
  rw [List.dropWhile_cons_of_neg (by simp [hc])]
  have hdnil : List.dropWhile isPySpace (c :: t).reverse ≠ [] := by
    intro hnil
    rw [List.dropWhile_eq_nil_iff] at hnil
    exact absurd (hnil c (by simp)) (by simp [hc])
  obtain ⟨pre, hpre⟩ := List.dropWhile_suffix (l := (c :: t).reverse) isPySpace
  have hlast : (List.dropWhile isPySpace (c :: t).reverse).getLast? = some c := by
    have h1 : ((pre ++ List.dropWhile isPySpace (c :: t).reverse)).getLast? =
        (List.dropWhile isPySpace (c :: t).reverse).getLast? :=
      List.getLast?_append_of_ne_nil pre hdnil
    rw [hpre] at h1
    rw [← h1, List.getLast?_reverse]
    rfl
  have hhead : (List.dropWhile isPySpace (c :: t).reverse).reverse.head? = some c := by
    rw [List.head?_reverse]; exact hlast
  cases hrev : (List.dropWhile isPySpace (c :: t).reverse).reverse with
  | nil => rw [hrev] at hhead; exact Option.noConfusion hhead
  | cons a t2 =>
    rw [hrev] at hhead
    injection hhead with hhead
    exact ⟨t2, by rw [hhead]⟩

theorem pyStrip_pyStr_ne (v : PyVal) (hv : «비공개인지» v = false) :
    pyStrip (pyStr v) ≠ "비공개".toList := by
  intro h
  cases v with
  | str s =>
    unfold «비공개인지» at hv
    rw [decide_eq_false_iff_not] at hv
    exact hv h
  | int n =>
    obtain ⟨c, t, hd, hs, hne⟩ := pyIntStr_head n
    rw [show pyStr (.int n) = pyIntStr n from rfl, hd] at h
    obtain ⟨t2, h2⟩ := pyStrip_cons_head c t hs
    rw [h2] at h
    injection h with h1 _
    exact hne h1
  | list l =>
    rw [show pyStr (.list l) = '[' :: (pyReprList l ++ [']']) from rfl] at h
    obtain ⟨t2, h2⟩ := pyStrip_cons_head '[' (pyReprList l ++ [']']) (by decide)
    rw [h2] at h
    injection h with h1 _
    exact absurd h1 (by decide)
  | dict l =>
    rw [show pyStr (.dict l) = '\x7b' :: (pyReprDict l ++ ['\x7d']) from rfl] at h
    obtain ⟨t2, h2⟩ := pyStrip_cons_head '\x7b' (pyReprDict l ++ ['\x7d']) (by decide)
    rw [h2] at h
    injection h with h1 _
    exact absurd h1 (by decide)
  | none =>
    rw [show pyStr PyVal.none = 'N' :: "one".toList from rfl] at h
    obtain ⟨t2, h2⟩ := pyStrip_cons_head 'N' "one".toList (by decide)
    rw [h2] at h
    injection h with h1 _
    exact absurd h1 (by decide)

theorem evalField_ne (v : PyVal) (hv : «비공개인지» v = false) :
    evalField v ≠ "비공개".toList := by
  unfold evalField
  split
  · exact pyStrip_pyStr_ne v hv
  · decide

theorem bareStr_ne (s : String) (hv : «비공개인지» (.str s) = false) :
    s.toList ≠ "비공개".toList := by
  intro h
  unfold «비공개인지» at hv
  rw [decide_eq_false_iff_not] at hv
  apply hv
  rw [h]
  decide

theorem mk_sentinel_false (v : PyVal) (hv : «비공개인지» v = false) :
    «비공개인지» (.str (String.mk (pyStr v))) = false := by
  unfold «비공개인지»
  exact decide_eq_false (pyStrip_pyStr_ne v hv)

theorem hopeField_sentinel_false (v : PyVal) (s : List Char)
    (h : hopeField v = some s) :
    «비공개인지» (.str (String.mk s)) = false := by
  unfold hopeField at h
  split at h
  case isTrue hcond =>
    injection h with h
    rw [← h]
    rw [Bool.and_eq_true] at hcond
    exact mk_sentinel_false v (by simpa using hcond.2)
  case isFalse => exact Option.noConfusion h

/-- C4 — Redaction law: on every successful structured-evaluation parse,
no output record carries the redaction sentinel as its evaluation text
(sentinel-valued entries are dropped entirely), and no stored
career-aspiration value is the sentinel (a sentinel aspiration is read as
absent). -/
theorem redactionLaw (data : List (PyVal × PyVal)) (fn : String) (res : YamlResult)
    (hok : parse_yaml data fn = .ok res) :
    (∀ a ∈ res.activities, a.evaluation ≠ "비공개".toList ∧
      ∀ s, a.career_hope = some s → «비공개인지» (.str (String.mk s)) = false) ∧
    (∀ sb ∈ res.subjects, sb.evaluation ≠ "비공개".toList) ∧
    (∀ b ∈ res.behaviors, b.evaluation ≠ "비공개".toList) ∧
    (∀ hp ∈ res.career_hopes, «비공개인지» (.str (String.mk hp.hope)) = false) := by
  simp only [parse_yaml] at hok
  split at hok
  case h_2 => exact Except.noConfusion hok
  case h_1 _ info hinfo =>
    split at hok
    case h_2 => exact Except.noConfusion hok
    case h_1 _ acts hacts =>
      split at hok
      case h_2 => exact Except.noConfusion hok
      case h_1 _ subs hsubs =>
        split at hok
        case h_2 => exact Except.noConfusion hok
        case h_1 _ beh hbeh =>
          injection hok with hok
          rw [← hok]
          refine ⟨?_, ?_, ?_, ?_⟩
          · -- activities
            intro a ha
            simp only [List.mem_flatMap] at ha
            obtain ⟨cg, _, ha⟩ := ha
            split at ha
            case h_1 => exact absurd ha (List.not_mem_nil a)
            case h_2 _ grades hg =>
              simp only [List.mem_filterMap] at ha
              obtain ⟨ge, _, hm⟩ := ha
              split at hm
              case isTrue => exact Option.noConfusion hm
              case isFalse =>
                split at hm
                case isTrue => exact Option.noConfusion hm
                case isFalse hsent =>
                  split at hm
                  case h_1 s hstr =>
                    injection hm with hm
                    rw [← hm]
                    refine ⟨?_, ?_⟩
                    · rw [hstr] at hsent
                      exact bareStr_ne s (by simpa using hsent)
                    · intro s0 hs0
                      exact absurd hs0 (by simp)
                  case h_2 content hdict =>
                    split at hm
                    case isTrue => exact Option.noConfusion hm
                    case isFalse heval =>
                      injection hm with hm
                      rw [← hm]
                      refine ⟨?_, ?_⟩
                      · exact evalField_ne _ (by simpa using heval)
                      · intro s0 hs0
                        exact hopeField_sentinel_false _ s0 hs0
                  case h_3 => exact Option.noConfusion hm
          · -- subjects
            intro sb hsb
            simp only [List.mem_flatMap] at hsb
            obtain ⟨ge, _, hsb⟩ := hsb
            split at hsb
            case isTrue => exact absurd hsb (List.not_mem_nil sb)
            case isFalse =>
              split at hsb
              case h_1 => exact absurd hsb (List.not_mem_nil sb)
              case h_2 _ sd hsd =>
                simp only [List.mem_filterMap] at hsb
                obtain ⟨se, _, hm⟩ := hsb
                split at hm
                case isTrue => exact Option.noConfusion hm
                case isFalse =>
                  split at hm
                  case isTrue => exact Option.noConfusion hm
                  case isFalse hsent =>
                    split at hm
                    case h_1 s hstr =>
                      injection hm with hm
                      rw [← hm]
                      rw [hstr] at hsent
                      exact bareStr_ne s (by simpa using hsent)
                    case h_2 content hdict =>
                      split at hm
                      case isTrue => exact Option.noConfusion hm
                      case isFalse heval =>
                        injection hm with hm
                        rw [← hm]
                        exact evalField_ne _ (by simpa using heval)
                    case h_3 => exact Option.noConfusion hm
          · -- behaviors
            intro b hb
            simp only [List.mem_filterMap] at hb
            obtain ⟨ge, _, hm⟩ := hb
            split at hm
            case isTrue => exact Option.noConfusion hm
            case isFalse =>
              split at hm
              case isTrue => exact Option.noConfusion hm
              case isFalse hsent =>
                split at hm
                case h_1 s hstr =>
                  injection hm with hm
                  rw [← hm]
                  rw [hstr] at hsent
                  exact bareStr_ne s (by simpa using hsent)
                case h_2 content hdict =>
                  split at hm
                  case isTrue => exact Option.noConfusion hm
                  case isFalse heval =>
                    injection hm with hm
                    rw [← hm]
                    exact evalField_ne _ (by simpa using heval)
                case h_3 => exact Option.noConfusion hm
          · -- career hopes
            intro hp hhp
            split at hhp
            case h_2 => exact absurd hhp (List.not_mem_nil hp)
            case h_1 _ hs hhs =>
              simp only [List.mem_filterMap] at hhp
              obtain ⟨kv, _, hm⟩ := hhp
              split at hm
              case isFalse => exact Option.noConfusion hm
              case isTrue hcond =>
                injection hm with hm
                rw [← hm]
                rw [Bool.and_eq_true, Bool.and_eq_true] at hcond
                exact mk_sentinel_false kv.2 (by simpa using hcond.2)

/-- Witness for C4: on `redactionData`, the sentinel-valued activity,
subject and behavior entries are dropped (3 of 4 activity entries remain,
1 of 2 subject entries, 1 of 2 behavior entries), the surviving records'
evaluations are not the sentinel, and the surviving grade-2 진로활동
aspiration is not the sentinel while the grade-1 sentinel aspiration was
nulled. -/
theorem redactionLaw_witness :
    redactionRes.activities.length = 3 ∧
    redactionRes.subjects.length = 1 ∧
    redactionRes.behaviors.length = 1 ∧
    redactionAct1.evaluation ≠ "비공개".toList ∧
    «비공개인지» (.str (String.mk redactionHope.hope)) = false ∧
    redactionAct3.career_hope = some "개발자".toList ∧
    «비공개인지» (.str (String.mk "개발자".toList)) = false :=
  ⟨rfl, rfl, rfl,
   ((redactionLaw redactionData "t.yaml" redactionRes rfl).1 redactionAct1
     (List.Mem.head _)).1,
   (redactionLaw redactionData "t.yaml" redactionRes rfl).2.2.2 redactionHope
     (List.Mem.head _),
   rfl,
   ((redactionLaw redactionData "t.yaml" redactionRes rfl).1 redactionAct3
     (List.Mem.tail _ (List.Mem.tail _ (List.Mem.head _)))).2
     "개발자".toList rfl⟩

/-- Keys added by `setdefault(...).append` satisfy a key invariant. -/
theorem sdAppend_keys (P : (List Char × Int) → Prop) (k : List Char × Int) (t : List Char)
    (l : List ((List Char × Int) × List (List Char)))
    (hk : P k) (hl : ∀ e ∈ l, P e.1) : ∀ e ∈ sdAppend l k t, P e.1 := by
  induction l with
  | nil =>
    intro e he
    rcases List.mem_singleton.mp he with rfl
    exact hk
  | cons x xs ih =>
    intro e he
    unfold sdAppend at he
    split at he
    · rcases List.mem_cons.mp he with rfl | he2
      · exact hl x (List.mem_cons_self x xs)
      · exact hl _ (List.mem_cons_of_mem _ he2)
    · rcases List.mem_cons.mp he with rfl | he2
      · exact hl _ (List.mem_cons_self _ _)
      · exact ih (fun e2 he2 => hl _ (List.mem_cons_of_mem _ he2)) e he2

theorem sdTouch_keys (P : (List Char × Int) → Prop) (k : List Char × Int)
    (l : List ((List Char × Int) × List (List Char)))
    (hk : P k) (hl : ∀ e ∈ l, P e.1) : ∀ e ∈ sdTouch l k, P e.1 := by
  induction l with
  | nil =>
    intro e he
    rcases List.mem_singleton.mp he with rfl
    exact hk
  | cons x xs ih =>
    intro e he
    unfold sdTouch at he
    split at he
    · exact hl e he
    · rcases List.mem_cons.mp he with rfl | he2
      · exact hl _ (List.mem_cons_self _ _)
      · exact ih (fun e2 he2 => hl _ (List.mem_cons_of_mem _ he2)) e he2

theorem bSet_keys (P : Int → Prop) (k : Int) (v : List Char)
    (l : List (Int × List Char))
    (hk : P k) (hl : ∀ e ∈ l, P e.1) : ∀ e ∈ bSet l k v, P e.1 := by
  induction l with
  | nil =>
    intro e he
    rcases List.mem_singleton.mp he with rfl
    exact hk
  | cons x xs ih =>
    intro e he
    unfold bSet at he
    split at he
    · rcases List.mem_cons.mp he with rfl | he2
      · exact hk
      · exact hl _ (List.mem_cons_of_mem _ he2)
    · rcases List.mem_cons.mp he with rfl | he2
      · exact hl _ (List.mem_cons_self _ _)
      · exact ih (fun e2 he2 => hl _ (List.mem_cons_of_mem _ he2)) e he2

theorem actMergedBuild_keys (P : (List Char × Int) → Prop) (items : List ActRec)
    (hitems : ∀ p ∈ items, P (p.category, p.grade)) :
    ∀ e ∈ actMergedBuild items, P e.1 := by
  unfold actMergedBuild
  suffices h : ∀ acc, (∀ e ∈ acc, P e.1) →
      ∀ e ∈ items.foldl (fun acc item =>
        if !(item.original_text.getD []).isEmpty then
          sdAppend acc (item.category, item.grade) (item.original_text.getD [])
        else sdTouch acc (item.category, item.grade)) acc, P e.1 by
    exact h [] (fun e he => absurd he (List.not_mem_nil e))
  induction items with
  | nil => intro acc hacc e he; exact hacc e he
  | cons p ps ih =>
    intro acc hacc e he
    simp only [List.foldl_cons] at he
    refine ih (fun q hq => hitems q (List.mem_cons_of_mem p hq)) _ ?_ e he
    have hp := hitems p (List.mem_cons_self p ps)
    split
    · exact sdAppend_keys P _ _ acc hp hacc
    · exact sdTouch_keys P _ acc hp hacc

theorem subjMergedBuild_keys (P : (List Char × Int) → Prop) (items : List SubjRec)
    (hitems : ∀ p ∈ items, P (p.subject_name, p.grade)) :
    ∀ e ∈ subjMergedBuild items, P e.1 := by
  unfold subjMergedBuild
  suffices h : ∀ acc, (∀ e ∈ acc, P e.1) →
      ∀ e ∈ items.foldl (fun acc item =>
        if !item.original_text.isEmpty then
          sdAppend acc (item.subject_name, item.grade) item.original_text
        else acc) acc, P e.1 by
    exact h [] (fun e he => absurd he (List.not_mem_nil e))
  induction items with
  | nil => intro acc hacc e he; exact hacc e he
  | cons p ps ih =>
    intro acc hacc e he
    simp only [List.foldl_cons] at he
    refine ih (fun q hq => hitems q (List.mem_cons_of_mem p hq)) _ ?_ e he
    have hp := hitems p (List.mem_cons_self p ps)
    split
    · exact sdAppend_keys P _ _ acc hp hacc
    · exact hacc

theorem behIndexBuild_keys (P : Int → Prop) (items : List BehavRec)
    (hitems : ∀ p ∈ items, P p.grade) :
    ∀ e ∈ items.foldl (fun acc item => bSet acc item.grade item.original_text) [],
      P e.1 := by
  suffices h : ∀ acc, (∀ e ∈ acc, P e.1) →
      ∀ e ∈ items.foldl (fun acc item => bSet acc item.grade item.original_text) acc,
        P e.1 by
    exact h [] (fun e he => absurd he (List.not_mem_nil e))
  induction items with
  | nil => intro acc hacc e he; exact hacc e he
  | cons p ps ih =>
    intro acc hacc e he
    simp only [List.foldl_cons] at he
    exact ih (fun q hq => hitems q (List.mem_cons_of_mem p hq)) _
      (bSet_keys P _ _ acc (hitems p (List.mem_cons_self p ps)) hacc) e he

theorem actLookup_none (pdf_data : Option PdfResult) (cat : PyVal) (g : Int)
    (h : ∀ p ∈ pdfActsOf pdf_data,
      ¬(pyBeq cat (.str (String.mk p.category)) = true ∧ p.grade = g)) :
    actLookup ((«원문_인덱스_생성» pdf_data).activities) cat g = Option.none := by
  unfold actLookup
  have hfind : ((«원문_인덱스_생성» pdf_data).activities).find?
      (fun e => pyBeq cat (.str (String.mk e.1.1)) && decide (e.1.2 = g)) =
      Option.none := by
    rw [List.find?_eq_none]
    intro e he
    cases pdf_data with
    | none => exact absurd he (List.not_mem_nil e)
    | some d =>
      simp only [«원문_인덱스_생성», List.mem_map] at he
      obtain ⟨e2, he2, rfl⟩ := he
      have := actMergedBuild_keys
        (fun kk => ¬(pyBeq cat (.str (String.mk kk.1)) = true ∧ kk.2 = g))
        d.activities (fun p hp => h p hp) e2 he2
      simpa using this
  rw [hfind]

theorem subjLookup_none (pdf_data : Option PdfResult) (name : PyVal) (g : Int)
    (h : ∀ p ∈ pdfSubjsOf pdf_data,
      ¬(pyBeq name (.str (String.mk p.subject_name)) = true ∧ p.grade = g)) :
    subjLookup ((«원문_인덱스_생성» pdf_data).subjects) name g = Option.none := by
  unfold subjLookup
  have hfind : ((«원문_인덱스_생성» pdf_data).subjects).find?
      (fun e => pyBeq name (.str (String.mk e.1.1)) && decide (e.1.2 = g)) =
      Option.none := by
    rw [List.find?_eq_none]
    intro e he
    cases pdf_data with
    | none => exact absurd he (List.not_mem_nil e)
    | some d =>
      simp only [«원문_인덱스_생성», List.mem_map] at he
      obtain ⟨e2, he2, rfl⟩ := he
      have := subjMergedBuild_keys
        (fun kk => ¬(pyBeq name (.str (String.mk kk.1)) = true ∧ kk.2 = g))
        d.subjects (fun p hp => h p hp) e2 he2
      simpa using this
  rw [hfind]
  rfl

theorem behLookup_none (pdf_data : Option PdfResult) (g : Int)
    (h : ∀ p ∈ pdfBehsOf pdf_data, ¬(p.grade = g)) :
    behLookup ((«원문_인덱스_생성» pdf_data).behaviors) g = Option.none := by
  unfold behLookup
  have hfind : ((«원문_인덱스_생성» pdf_data).behaviors).find?
      (fun e => decide (e.1 = g)) = Option.none := by
    rw [List.find?_eq_none]
    intro e he
    cases pdf_data with
    | none => exact absurd he (List.not_mem_nil e)
    | some d =>
      have := behIndexBuild_keys (fun kk => ¬(kk = g)) d.behaviors
        (fun p hp => h p hp) e he
      simpa using this
  rw [hfind]
  rfl

/-- C1 — Merge completeness of the reconciliation engine: for every parsed
structured-evaluation input and every (optional) document parse, each
evaluation record appears exactly once, in order, in the merged output
(the three merged lists have the same lengths as the evaluation lists and
preserve category/grade/name, career aspiration, evaluation and rationale
at every index), and whenever no document record matches an evaluation
record's key — `(category, grade)` for activities, `(subject name, grade)`
for subjects, the grade for behaviors — the merged record's original text
is null. -/
theorem merge_completeness (yaml : YamlResult) (pdf_data : Option PdfResult) :
    ((«레퍼런스_레코드» yaml pdf_data).activities.length = yaml.activities.length ∧
     («레퍼런스_레코드» yaml pdf_data).subjects.length = yaml.subjects.length ∧
     («레퍼런스_레코드» yaml pdf_data).behaviors.length = yaml.behaviors.length) ∧
    (∀ i (h1 : i < yaml.activities.length)
        (h2 : i < («레퍼런스_레코드» yaml pdf_data).activities.length),
      ((«레퍼런스_레코드» yaml pdf_data).activities.get ⟨i, h2⟩).category =
          (yaml.activities.get ⟨i, h1⟩).category ∧
      ((«레퍼런스_레코드» yaml pdf_data).activities.get ⟨i, h2⟩).grade =
          (yaml.activities.get ⟨i, h1⟩).grade ∧
      ((«레퍼런스_레코드» yaml pdf_data).activities.get ⟨i, h2⟩).career_hope =
          (yaml.activities.get ⟨i, h1⟩).career_hope ∧
      ((«레퍼런스_레코드» yaml pdf_data).activities.get ⟨i, h2⟩).evaluation =
          (yaml.activities.get ⟨i, h1⟩).evaluation ∧
      ((«레퍼런스_레코드» yaml pdf_data).activities.get ⟨i, h2⟩).reason =
          (yaml.activities.get ⟨i, h1⟩).reason ∧
      ((∀ p ∈ pdfActsOf pdf_data,
          ¬(pyBeq (yaml.activities.get ⟨i, h1⟩).category
              (.str (String.mk p.category)) = true ∧
            p.grade = (yaml.activities.get ⟨i, h1⟩).grade)) →
        ((«레퍼런스_레코드» yaml pdf_data).activities.get ⟨i, h2⟩).original_text =
          Option.none)) ∧
    (∀ i (h1 : i < yaml.subjects.length)
        (h2 : i < («레퍼런스_레코드» yaml pdf_data).subjects.length),
      ((«레퍼런스_레코드» yaml pdf_data).subjects.get ⟨i, h2⟩).subject_name =
          (yaml.subjects.get ⟨i, h1⟩).subject_name ∧
      ((«레퍼런스_레코드» yaml pdf_data).subjects.get ⟨i, h2⟩).grade =
          (yaml.subjects.get ⟨i, h1⟩).grade ∧
      ((«레퍼런스_레코드» yaml pdf_data).subjects.get ⟨i, h2⟩).evaluation =
          (yaml.subjects.get ⟨i, h1⟩).evaluation ∧
      ((«레퍼런스_레코드» yaml pdf_data).subjects.get ⟨i, h2⟩).reason =
          (yaml.subjects.get ⟨i, h1⟩).reason ∧
      ((∀ p ∈ pdfSubjsOf pdf_data,
          ¬(pyBeq (yaml.subjects.get ⟨i, h1⟩).subject_name
              (.str (String.mk p.subject_name)) = true ∧
            p.grade = (yaml.subjects.get ⟨i, h1⟩).grade)) →
        ((«레퍼런스_레코드» yaml pdf_data).subjects.get ⟨i, h2⟩).original_text =
          Option.none)) ∧
    (∀ i (h1 : i < yaml.behaviors.length)
        (h2 : i < («레퍼런스_레코드» yaml pdf_data).behaviors.length),
      ((«레퍼런스_레코드» yaml pdf_data).behaviors.get ⟨i, h2⟩).grade =
          (yaml.behaviors.get ⟨i, h1⟩).grade ∧
      ((«레퍼런스_레코드» yaml pdf_data).behaviors.get ⟨i, h2⟩).evaluation =
          (yaml.behaviors.get ⟨i, h1⟩).evaluation ∧
      ((«레퍼런스_레코드» yaml pdf_data).behaviors.get ⟨i, h2⟩).reason =
          (yaml.behaviors.get ⟨i, h1⟩).reason ∧
      ((∀ p ∈ pdfBehsOf pdf_data, ¬(p.grade = (yaml.behaviors.get ⟨i, h1⟩).grade)) →
        ((«레퍼런스_레코드» yaml pdf_data).behaviors.get ⟨i, h2⟩).original_text =
          Option.none)) := by
  refine ⟨⟨?_, ?_, ?_⟩, ?_, ?_, ?_⟩
  · simp [«레퍼런스_레코드»]
  · simp [«레퍼런스_레코드»]
  · simp [«레퍼런스_레코드»]
  · intro i h1 h2
    simp only [«레퍼런스_레코드», List.get_eq_getElem, List.getElem_map]
    refine ⟨trivial, trivial, trivial, trivial, trivial, ?_⟩
    intro hno
    exact actLookup_none pdf_data _ _ hno
  · intro i h1 h2
    simp only [«레퍼런스_레코드», List.get_eq_getElem, List.getElem_map]
    refine ⟨trivial, trivial, trivial, trivial, ?_⟩
    intro hno
    exact subjLookup_none pdf_data _ _ hno
  · intro i h1 h2
    simp only [«레퍼런스_레코드», List.get_eq_getElem, List.getElem_map]
    refine ⟨trivial, trivial, trivial, ?_⟩
    intro hno
    exact behLookup_none pdf_data _ hno

/-- Witness for C1: merging `mcYaml` (one activity, subject and behavior
evaluation record) with an absent document parse keeps every record once,
preserves its evaluation text and leaves every original text null. -/
theorem merge_completeness_witness :
    mcMerged.activities.length = 1 ∧
    mcAct.original_text = Option.none ∧
    mcAct.evaluation = "평가 내용".toList ∧
    mcSubj.original_text = Option.none ∧
    mcBeh.original_text = Option.none :=
  ⟨(merge_completeness mcYaml Option.none).1.1,
   ((merge_completeness mcYaml Option.none).2.1 0 (by decide) (by decide)).2.2.2.2.2
     (fun p hp => absurd hp (List.not_mem_nil p)),
   ((merge_completeness mcYaml Option.none).2.1 0 (by decide) (by decide)).2.2.2.1,
   ((merge_completeness mcYaml Option.none).2.2.1 0 (by decide) (by decide)).2.2.2.2
     (fun p hp => absurd hp (List.not_mem_nil p)),
   ((merge_completeness mcYaml Option.none).2.2.2 0 (by decide) (by decide)).2.2.2
     (fun p hp => absurd hp (List.not_mem_nil p))⟩
